import Mathlib

/-!
# Lullibee premium API: formal model and verification

A shallow embedding of the payment/entitlement reconciliation code of the
`lullibee-premium-api` repository, together with theorems settling the
specification claims about it.

Firestore documents are modelled as records of optional fields (a `none`
field is an absent field, mirroring a missing key in a document).  The two
collections (`users`, `payments`) are association lists keyed by document
id, plus a counter for the `webhook_traces` collection.  Numeric values
(epoch milliseconds, minor currency units) are modelled as `Int`;
`FieldValue.serverTimestamp()` is modelled as the handler's `now`.

Handlers are modelled as pure functions from the store, the parsed request
and the external oracle results (Paystack verify, Google Play subscription
lookup, HMAC signature comparison) to a response plus a list of write
groups; each group is one atomic write (a Firestore transaction is one
group, a plain `set` call is a singleton group).  This makes intermediate
states between non-transactional writes observable.
-/

namespace LullibeeApi

/-! ## Document model -/

/-- The nested `premium` map written by the Google Play verification
handler and read/updated by the expiry sweep. -/
structure PremiumMap where
  active : Option Bool := none
  expiresAt : Option Int := none
  expiryTimeMillis : Option Int := none
  premSource : Option String := none
  sku : Option String := none
  updatedAt : Option Int := none
deriving DecidableEq, Repr

/-- A document of the `users` collection: the entitlement record.
Top-level fields are the legacy Paystack schema; the nested `premium`
map is the newer Play schema. -/
structure UserDoc where
  plan : Option String := none
  email : Option String := none
  premiumSince : Option Int := none
  premiumExpiry : Option Int := none
  lastPaymentRef : Option String := none
  lastPaymentAt : Option Int := none
  lastPaymentAmount : Option Int := none
  lastPaymentCurrency : Option String := none
  userSource : Option String := none
  lastDowngradedAt : Option Int := none
  premium : PremiumMap := {}
deriving DecidableEq, Repr

/-- The `rawSummary` sub-object written by the legacy webhook for
ignored/unresolved events. -/
structure RawSummary where
  amount : Option Int := none
  currency : Option String := none
  email : Option String := none
deriving DecidableEq, Repr

/-- A document of the `payments` collection: the payment ledger entry,
keyed by provider reference. -/
structure PaymentDoc where
  uid : Option String := none
  reference : Option String := none
  status : Option String := none
  paySource : Option String := none
  amount : Option Int := none
  currency : Option String := none
  email : Option String := none
  processed : Option Bool := none
  processedAt : Option Int := none
  createdAt : Option Int := none
  lastEvent : Option String := none
  eventType : Option String := none
  reason : Option String := none
  rawSummary : Option RawSummary := none
deriving DecidableEq, Repr

/-- The Firestore state touched by the handlers: the `users` and
`payments` collections (association lists keyed by document id) and the
size of the `webhook_traces` collection. -/
structure DB where
  users : List (String × UserDoc) := []
  payments : List (String × PaymentDoc) := []
  traces : Nat := 0
deriving DecidableEq, Repr

/-! ## Association-list store primitives -/

/-- Read a document by id (`docRef.get`). -/
def lookupDoc {δ : Type} : List (String × δ) → String → Option δ
  | [], _ => none
  | p :: t, k => if p.1 == k then some p.2 else lookupDoc t k

/-- `docRef.set(..., { merge: true })`: update the document through `fn`
if it exists, otherwise create it from `fn none`. -/
def upsertDoc {δ : Type} : List (String × δ) → String → (Option δ → δ) → List (String × δ)
  | [], k, fn => [(k, fn none)]
  | p :: t, k, fn => if p.1 == k then (k, fn (some p.2)) :: t else p :: upsertDoc t k fn

theorem lookupDoc_upsertDoc_self {δ : Type} (l : List (String × δ)) (k : String)
    (fn : Option δ → δ) :
    lookupDoc (upsertDoc l k fn) k = some (fn (lookupDoc l k)) := by
  induction l with
  | nil => simp [lookupDoc, upsertDoc]
  | cons p t ih =>
    by_cases hk : p.1 = k
    · simp [lookupDoc, upsertDoc, hk]
    · have hk' : (p.1 == k) = false := by simp [hk]
      simpa [lookupDoc, upsertDoc, hk'] using ih

theorem lookupDoc_upsertDoc_ne {δ : Type} (l : List (String × δ)) (k k' : String)
    (fn : Option δ → δ) (h : k' ≠ k) :
    lookupDoc (upsertDoc l k fn) k' = lookupDoc l k' := by
  induction l with
  | nil => simp [lookupDoc, upsertDoc, Ne.symm h]
  | cons p t ih =>
    by_cases hk : p.1 = k
    · have hne : (k == k') = false := by simpa using Ne.symm h
      have hne' : (p.1 == k') = false := by rw [hk]; simpa using Ne.symm h
      simp [lookupDoc, upsertDoc, hk, hne, hne']
    · have hk' : (p.1 == k) = false := by simp [hk]
      by_cases hp : p.1 = k'
      · simp [lookupDoc, upsertDoc, hk', hp, h]
      · have hp' : (p.1 == k') = false := by simp [hp]
        simpa [lookupDoc, upsertDoc, hk', hp'] using ih

/-- The ids of a store are unchanged by updating an existing document and
extended by `k` when the document is created. -/
theorem map_fst_upsertDoc {δ : Type} (l : List (String × δ)) (k : String)
    (fn : Option δ → δ) :
    (upsertDoc l k fn).map Prod.fst = l.map Prod.fst ++ [k] ∨
      (upsertDoc l k fn).map Prod.fst = l.map Prod.fst := by
  induction l with
  | nil => left; simp [upsertDoc]
  | cons p t ih =>
    by_cases hk : p.1 = k
    · right; simp [upsertDoc, hk]
    · have hk' : (p.1 == k) = false := by simp [hk]
      rcases ih with ih | ih
      · left; simp [upsertDoc, hk', ih]
      · right; simp [upsertDoc, hk', ih]

/-! ## JavaScript truthiness helpers -/

/-- JS `a || b` on possibly-absent strings: the empty string is falsy. -/
def orElseStr (a b : Option String) : Option String :=
  match a with
  | some s => if s = "" then b else some s
  | none => b

/-- JS `a || d` on a possibly-absent string with a string default. -/
def strOr (a : Option String) (d : String) : String :=
  match a with
  | some s => if s = "" then d else s
  | none => d

/-- JS `v || d` on a possibly-absent number: `0` is falsy. -/
def intOr (v : Option Int) (d : Int) : Int :=
  match v with
  | some x => if x = 0 then d else x
  | none => d

/-! ## Extension-day extraction (§4.1 of the spec)

Three distinct extraction rules exist in the sources:
`api/paystack/confirm.js` lines 32-38 (clamping with `Math.max(1, ·)`),
the legacy webhook `part_000` lines 116-120 (truthiness chain with a
`> 0` check), and the current webhook `api/paystack/webhook.js` line 62
(a fixed `30` ignoring metadata). -/

/-- `api/paystack/confirm.js` lines 32-38:
`viaDays = Number.isFinite(+days) ? +days : NaN`;
`viaMonths = Number.isFinite(+months) ? +months * 30 : NaN`;
`extendDays = isFinite(viaDays) ? Math.max(1, viaDays) :
 isFinite(viaMonths) ? Math.max(1, viaMonths) : 30`.
An absent value is modelled as `none` (`+undefined` is `NaN`). -/
def confirmExtendDays (days months : Option Int) : Int :=
  match days with
  | some d => max 1 d
  | none =>
    match months with
    | some m => max 1 (m * 30)
    | none => 30

/-- `src/unnamed/part_000` lines 116-120:
`daysFromMeta = (Number.isFinite(+md.days) && +md.days) ||
 (Number.isFinite(+md.months) && +md.months * 30)`;
`extendDays = daysFromMeta && daysFromMeta > 0 ? daysFromMeta : 30`.
The JS falsy values `false`, `0` and `NaN` all fail the final
`daysFromMeta && daysFromMeta > 0` test, so they are collapsed to `0`
here; a present `days` of `0` is falsy and falls through to the months
alternative, while a nonzero `days` short-circuits the `||`. -/
def part000ExtendDays (days months : Option Int) : Int :=
  let monthsPart : Int :=
    match months with
    | some m => m * 30
    | none => 0
  let daysFromMeta : Int :=
    match days with
    | some d => if d ≠ 0 then d else monthsPart
    | none => monthsPart
  if 0 < daysFromMeta then daysFromMeta else 30

/-- The extraction rule exactly as the specification words it, for
comparison with the code's rules: the explicit day count if present,
else the month count times 30, else the fixed default 30; an extracted
value `≤ 0` is treated as absent and falls through to the default of
30 days. -/
def specExtensionDays (days months : Option Int) : Int :=
  let extracted : Option Int :=
    match days with
    | some d => some d
    | none =>
      match months with
      | some m => some (m * 30)
      | none => none
  match extracted with
  | some v => if 0 < v then v else 30
  | none => 30

/-! ## External oracle results and parsed requests -/

/-- Paystack `transaction/verify` response, as consumed by
`confirm.js` lines 20-25 and 60-62. -/
structure VerifyResult where
  status : Bool := false
  dataStatus : Option String := none
  amount : Option Int := none
  currency : Option String := none
  customerEmail : Option String := none
deriving DecidableEq, Repr

/-- Parsed body of a client confirmation request (`confirm.js` line 8).
An absent `uid`/`reference` is modelled as the (equally falsy) empty
string. -/
structure ConfirmReq where
  uid : String := ""
  reference : String := ""
  days : Option Int := none
  months : Option Int := none
deriving DecidableEq, Repr

/-- Parsed Paystack webhook body (`webhook.js` lines 23-39,
`part_000` lines 24-27 and 116). -/
structure PsWebhookEvent where
  eventType : String := ""
  metadataUid : Option String := none
  customerMetadataUid : Option String := none
  metadataDays : Option Int := none
  metadataMonths : Option Int := none
  reference : Option String := none
  subscriptionCode : Option String := none
  dataId : Option Int := none
  amount : Option Int := none
  currency : Option String := none
  customerEmail : Option String := none
  dataStatus : Option String := none
deriving DecidableEq, Repr

/-- Parsed body of a Play verification request
(`verify-subscription.js` lines 69-81), after the `packageName` env
fallback; absent string fields are modelled as `""`. -/
structure PlayReq where
  uid : String := ""
  packageName : String := ""
  productId : Option String := none
  purchaseToken : String := ""
  testMode : Bool := false
  platform : String := "android"
deriving DecidableEq, Repr

/-- Result of the Google Play `purchases.subscriptionsv2.get` call:
`ok = false` models the call throwing (invalid token), `expiryTime` is
`lineItems[0]?.expiryTime` (`verify-subscription.js` lines 92-99). -/
structure PlaySubResult where
  ok : Bool := false
  expiryTime : Option Int := none
deriving DecidableEq, Repr

/-! ## Write operations

Each constructor is one `set`/`add` call site in the sources; values
resolved by the handler before the write (`||` / `??` chains,
`serverTimestamp`) are carried in the constructor. -/

inductive WriteOp where
  /-- `confirm.js` lines 52-65: `payments/{reference}` merge write. -/
  | confirmLedger (reference uid : String) (amount : Option Int) (currency : String)
      (email : Option String) (now : Int)
  /-- `confirm.js` lines 68-81: `users/{uid}` merge write. -/
  | confirmUser (uid : String) (email : Option String) (premiumSince premiumExpiry : Int)
      (reference : String) (amount : Option Int) (currency : String) (now : Int)
  /-- `webhook.js` lines 69-83: transactional `users/{uid}` write. -/
  | webhookUser (uid : String) (premiumSince premiumExpiry : Int) (reference : String)
      (amount : Option Int) (currency : String) (email : Option String) (now : Int)
  /-- `webhook.js` lines 85-101: transactional `payments/{reference}` write. -/
  | webhookLedger (reference uid : String) (amount : Option Int) (currency : String)
      (email : Option String) (lastEvent : String) (now : Int)
  /-- `part_000` lines 35-42: `webhook_traces` add (happens before the
  signature check). -/
  | traceAdd
  /-- `part_000` lines 57-70: minimal record for an ignored event. -/
  | p0IgnoredLedger (reference eventType status : String) (amount : Option Int)
      (currency : String) (email : Option String) (now : Int)
  /-- `part_000` lines 96-111: unresolved-identity ledger record. -/
  | p0UnresolvedLedger (reference eventType status : String) (amount : Option Int)
      (currency : String) (email : Option String) (now : Int)
  /-- `part_000` lines 133-146: processed ledger write. -/
  | p0Ledger (reference uid eventType status : String) (amount : Option Int)
      (currency : String) (email : Option String) (now : Int)
  /-- `part_000` lines 149-162: user premium update. -/
  | p0User (uid : String) (email : Option String) (premiumSince premiumExpiry : Int)
      (reference : String) (amount : Option Int) (currency : String) (now : Int)
  /-- `verify-subscription.js` lines 120-129: `premium` map merge write. -/
  | playUser (uid : String) (active : Bool) (expiryMs : Int) (sku : Option String) (now : Int)
deriving DecidableEq, Repr

/-- Apply one write to the store, with Firestore `merge: true`
semantics on the fields each call site names (a `null` value in the
source writes `none`). -/
def applyOp (db : DB) : WriteOp → DB
  | .confirmLedger reference uid amount currency email now =>
    { db with payments := upsertDoc db.payments reference (fun old =>
        let d := old.getD {}
        { d with uid := some uid, reference := some reference, status := some "success",
                 paySource := some "client-confirm", createdAt := some now,
                 processed := some true, amount := amount, currency := some currency,
                 email := email }) }
  | .confirmUser uid email premiumSince premiumExpiry reference amount currency now =>
    { db with users := upsertDoc db.users uid (fun old =>
        let d := old.getD {}
        { d with email := email, plan := some "premium", premiumSince := some premiumSince,
                 premiumExpiry := some premiumExpiry, lastPaymentRef := some reference,
                 lastPaymentAt := some now, lastPaymentAmount := amount,
                 lastPaymentCurrency := some currency, userSource := some "paystack" }) }
  | .webhookUser uid premiumSince premiumExpiry reference amount currency email now =>
    { db with users := upsertDoc db.users uid (fun old =>
        let d := old.getD {}
        { d with plan := some "premium", premiumSince := some premiumSince,
                 premiumExpiry := some premiumExpiry, lastPaymentRef := some reference,
                 lastPaymentAt := some now, lastPaymentAmount := amount,
                 lastPaymentCurrency := some currency, userSource := some "paystack",
                 email := email }) }
  | .webhookLedger reference uid amount currency email lastEvent now =>
    { db with payments := upsertDoc db.payments reference (fun old =>
        let d := old.getD {}
        { d with uid := some uid, reference := some reference, status := some "success",
                 paySource := some "webhook", amount := amount, currency := some currency,
                 email := email, processed := some true, processedAt := some now,
                 createdAt := some now, lastEvent := some lastEvent }) }
  | .traceAdd => { db with traces := db.traces + 1 }
  | .p0IgnoredLedger reference eventType status amount currency email now =>
    { db with payments := upsertDoc db.payments reference (fun old =>
        let d := old.getD {}
        { d with eventType := some eventType, status := some status, createdAt := some now,
                 rawSummary := some ⟨amount, some currency, email⟩,
                 processed := some false }) }
  | .p0UnresolvedLedger reference eventType status amount currency email now =>
    { db with payments := upsertDoc db.payments reference (fun old =>
        let d := old.getD {}
        { d with reference := some reference, eventType := some eventType,
                 status := some status, createdAt := some now,
                 rawSummary := some ⟨amount, some currency, email⟩,
                 processed := some false, reason := some "no-uid" }) }
  | .p0Ledger reference uid eventType status amount currency email now =>
    { db with payments := upsertDoc db.payments reference (fun old =>
        let d := old.getD {}
        { d with uid := some uid, reference := some reference, eventType := some eventType,
                 status := some status, amount := amount, currency := some currency,
                 email := email, createdAt := some now, processed := some true }) }
  | .p0User uid email premiumSince premiumExpiry reference amount currency now =>
    { db with users := upsertDoc db.users uid (fun old =>
        let d := old.getD {}
        { d with email := email, plan := some "premium", premiumSince := some premiumSince,
                 premiumExpiry := some premiumExpiry, lastPaymentRef := some reference,
                 lastPaymentAt := some now, lastPaymentAmount := amount,
                 lastPaymentCurrency := some currency, userSource := some "paystack" }) }
  | .playUser uid active expiryMs sku now =>
    { db with users := upsertDoc db.users uid (fun old =>
        let d := old.getD {}
        { d with premium := { d.premium with
            active := some active, premSource := some "play", updatedAt := some now,
            expiresAt := if expiryMs = 0 then none else some expiryMs,
            expiryTimeMillis := if expiryMs = 0 then none else some expiryMs,
            sku := sku } }) }

/-- Apply one atomic write group (a transaction commit or a single
`set` call). -/
def applyTxn (db : DB) (g : List WriteOp) : DB := g.foldl applyOp db

/-- Apply a handler's whole write sequence. -/
def applyTxns (db : DB) (txns : List (List WriteOp)) : DB := txns.foldl applyTxn db

/-- All states the store passes through while the handler's write
groups commit one after the other: the initial state, then the state
after each atomic group.  A state strictly between two writes of the
same group is not reachable (the group is atomic), but a state between
two groups is. -/
def dbStates (db : DB) (txns : List (List WriteOp)) : List DB := txns.scanl applyTxn db

/-! ## The client confirmation handler (`api/paystack/confirm.js`) -/

/-- Read `users/{uid}` (`snap.exists ? snap.data() : {}` keeps the
absent case as `none` here; field reads below default it). -/
def readUser (db : DB) (uid : String) : Option UserDoc := lookupDoc db.users uid

/-- `confirm.js` line 46: `Number(userData?.premiumExpiry || 0)`. -/
def currentExpiryMs (db : DB) (uid : String) : Int :=
  ((readUser db uid).bind UserDoc.premiumExpiry).getD 0

/-- Response of the confirmation handler (`res.status(...)`,
`res.json({...})`). -/
structure ConfirmResp where
  status : Nat
  ok : Bool := false
  message : Option String := none
  premiumExpiry : Option Int := none
  extendDays : Option Int := none
  baseFrom : Option Int := none
deriving DecidableEq, Repr

/-- `api/paystack/confirm.js`, the success-path handler: verify with
Paystack, compute the extension from `max(currentExpiry, now)`, then
issue two separate (non-transactional) merge writes: first the
`payments/{reference}` ledger upsert marking `processed: true`
(lines 52-65), then the `users/{uid}` premium update (lines 68-81). -/
def runConfirm (db : DB) (req : ConfirmReq) (verify : VerifyResult) (now : Int) :
    ConfirmResp × List (List WriteOp) :=
  if req.uid = "" ∨ req.reference = "" then
    ({ status := 400, message := some "uid and reference required" }, [])
  else if ¬(verify.status = true ∧ verify.dataStatus = some "success") then
    ({ status := 400, message := some "Payment not verified" }, [])
  else
    let extendDays := confirmExtendDays req.days req.months
    let userData := readUser db req.uid
    let currentExpiry := currentExpiryMs db req.uid
    let base := if currentExpiry > now then currentExpiry else now
    let newExpiry := base + extendDays * 24 * 60 * 60 * 1000
    let currency := verify.currency.getD "ZAR"
    let payEmail := verify.customerEmail.orElse (fun _ => userData.bind UserDoc.email)
    let userEmail := orElseStr (userData.bind UserDoc.email) verify.customerEmail
    let premiumSince := intOr (userData.bind UserDoc.premiumSince) now
    ({ status := 200, ok := true, premiumExpiry := some newExpiry,
       extendDays := some extendDays, baseFrom := some base },
     [[WriteOp.confirmLedger req.reference req.uid verify.amount currency payEmail now],
      [WriteOp.confirmUser req.uid userEmail premiumSince newExpiry req.reference
         verify.amount currency now]])

/-! ## The Paystack webhook handler (`api/paystack/webhook.js`) -/

/-- `webhook.js` line 19 / `part_000` line 45:
`!headerSig || headerSig !== computedSig` rejects. -/
def sigOk (headerSig : Option String) (computedSig : String) : Bool :=
  match headerSig with
  | some s => s != "" && s == computedSig
  | none => false

/-- `webhook.js` lines 28-33: the provider-specific success allow-list. -/
def successEvents : List String :=
  ["charge.success", "subscription.create", "subscription.enable", "invoice.payment_success"]

/-- `webhook.js` line 38: `data?.metadata?.uid || data?.customer?.metadata?.uid || ""`. -/
def webhookUid (ev : PsWebhookEvent) : String :=
  strOr (orElseStr ev.metadataUid ev.customerMetadataUid) ""

/-- `webhook.js` line 39 / `part_000` line 27:
`data?.reference || data?.subscription_code || String(data?.id || "")`. -/
def webhookReference (ev : PsWebhookEvent) : String :=
  let idStr : String :=
    match ev.dataId with
    | some n => if n = 0 then "" else toString n
    | none => ""
  strOr (orElseStr ev.reference ev.subscriptionCode) idStr

/-- The idempotency guard's read:
`paySnap.exists && paySnap.data()?.processed` is truthy. -/
def isProcessed (db : DB) (ref : String) : Bool :=
  match lookupDoc db.payments ref with
  | some p => p.processed == some true
  | none => false

/-- Response of the current webhook handler. -/
structure WebhookResp where
  status : Nat
  ok : Bool := false
  error : Option String := none
  skipped : Bool := false
  event : Option String := none
  uid : Option String := none
  reference : Option String := none
  newExpiryMs : Option Int := none
  alreadyProcessed : Bool := false
deriving DecidableEq, Repr

/-- `api/paystack/webhook.js`: signature check, success-event
classification, identity extraction, then one Firestore transaction
(lines 54-102) that re-reads the ledger guard and, if unprocessed,
writes the user update and the `processed: true` ledger entry as one
atomic group.  The expiry policy is `nowMs + 30 days`, overwriting any
remaining time (lines 61-63, "Overwrite policy: from NOW"). -/
def runWebhook (db : DB) (ev : PsWebhookEvent) (headerSig : Option String)
    (computedSig : String) (now : Int) : WebhookResp × List (List WriteOp) :=
  if sigOk headerSig computedSig = false then
    ({ status := 200, error := some "bad_signature" }, [])
  else if (successEvents.contains ev.eventType) = false then
    ({ status := 200, ok := true, skipped := true, event := some ev.eventType }, [])
  else
    let uid := webhookUid ev
    let reference := webhookReference ev
    if uid = "" ∨ reference = "" then
      ({ status := 200, error := some "missing_uid_or_ref" }, [])
    else if isProcessed db reference then
      ({ status := 200, ok := true, uid := some uid, reference := some reference,
         newExpiryMs := some 0, alreadyProcessed := true }, [])
    else
      let extendDays : Int := 30
      let newExpiry := now + extendDays * 24 * 60 * 60 * 1000
      let current := readUser db uid
      let premiumSince := intOr (current.bind UserDoc.premiumSince) now
      let currency := ev.currency.getD "ZAR"
      let userEmail := orElseStr (current.bind UserDoc.email) ev.customerEmail
      let ledgerEmail := ev.customerEmail.orElse (fun _ => current.bind UserDoc.email)
      ({ status := 200, ok := true, uid := some uid, reference := some reference,
         newExpiryMs := some newExpiry },
       [[WriteOp.webhookUser uid premiumSince newExpiry reference ev.amount currency
           userEmail now,
         WriteOp.webhookLedger reference uid ev.amount currency ledgerEmail
           ev.eventType now]])

/-! ## The legacy webhook handler (`src/unnamed/part_000`) -/

/-- `part_000` lines 50-53: success when the event type is a listed
success type or `data.status === "success"`. -/
def isSuccess0 (ev : PsWebhookEvent) : Bool :=
  ev.eventType == "charge.success" || ev.eventType == "invoice.payment_success" ||
    ev.dataStatus == some "success"

/-- `part_000` lines 87-94: `metadata.uid` or a single-match lookup of
the account by customer email. -/
def resolveUid0 (db : DB) (ev : PsWebhookEvent) : Option String :=
  let emailLookup : Option String :=
    match ev.customerEmail with
    | some e =>
      if e = "" then none
      else (db.users.find? (fun p => p.2.email == some e)).map Prod.fst
    | none => none
  match ev.metadataUid with
  | some u => if u = "" then emailLookup else some u
  | none => emailLookup

/-- Response of the legacy webhook handler. -/
structure Webhook0Resp where
  status : Nat
  ok : Bool := false
  reason : Option String := none
  ignored : Bool := false
  idempotent : Bool := false
  newExpiryMs : Option Int := none
deriving DecidableEq, Repr

/-- `src/unnamed/part_000`: the older webhook.  It unconditionally adds
a `webhook_traces` record (lines 35-42) before the signature check, and
on the success path performs the extend-from-max computation
(lines 128-130) with two separate, non-transactional ledger/user writes. -/
def runWebhook0 (db : DB) (ev : PsWebhookEvent) (headerSig : Option String)
    (computedSig : String) (now : Int) : Webhook0Resp × List (List WriteOp) :=
  let reference := webhookReference ev
  let trace : List (List WriteOp) := [[WriteOp.traceAdd]]
  if sigOk headerSig computedSig = false then
    ({ status := 200, reason := some "bad-signature" }, trace)
  else if isSuccess0 ev = false then
    if reference ≠ "" then
      ({ status := 200, ok := true, ignored := true },
       trace ++ [[WriteOp.p0IgnoredLedger reference ev.eventType
          (strOr ev.dataStatus "unknown") ev.amount (ev.currency.getD "ZAR")
          ev.customerEmail now]])
    else
      ({ status := 200, ok := true, ignored := true }, trace)
  else if reference = "" then
    ({ status := 200, reason := some "no-reference" }, trace)
  else if isProcessed db reference then
    ({ status := 200, ok := true, idempotent := true }, trace)
  else
    match resolveUid0 db ev with
    | none =>
      ({ status := 200, reason := some "no-uid" },
       trace ++ [[WriteOp.p0UnresolvedLedger reference ev.eventType
          (strOr ev.dataStatus "success") ev.amount (ev.currency.getD "ZAR")
          ev.customerEmail now]])
    | some uid =>
      let extendDays := part000ExtendDays ev.metadataDays ev.metadataMonths
      let userData := readUser db uid
      let currentExpiry := ((userData.bind UserDoc.premiumExpiry)).getD 0
      let base := if currentExpiry > now then currentExpiry else now
      let newExpiry := base + extendDays * 24 * 60 * 60 * 1000
      let userEmail := orElseStr (userData.bind UserDoc.email) ev.customerEmail
      let premiumSince := intOr (userData.bind UserDoc.premiumSince) now
      ({ status := 200, ok := true, newExpiryMs := some newExpiry },
       trace ++
        [[WriteOp.p0Ledger reference uid ev.eventType (strOr ev.dataStatus "success")
            ev.amount (ev.currency.getD "ZAR") ev.customerEmail now],
         [WriteOp.p0User uid userEmail premiumSince newExpiry reference ev.amount
            (ev.currency.getD "ZAR") now]])

/-! ## The Play verification handler (`api/play/verify-subscription.js`) -/

/-- Response of the Play verification handler. -/
structure PlayResp where
  status : Nat
  ok : Bool := false
  error : Option String := none
  test : Bool := false
  isActive : Option Bool := none
  expiryTimeMillis : Option Int := none
deriving DecidableEq, Repr

/-- `api/play/verify-subscription.js` (first handler, lines 58-139):
after input checks, look up the subscription; `active` is
`expiryMs > Date.now()` (line 100); the entitlement is then written
unconditionally (lines 120-129) — also when the subscription is not
active — and the handler answers `200 {ok: true}`.  The best-effort
`acknowledge` call touches no store state and is not modelled. -/
def runPlayVerify (db : DB) (req : PlayReq) (sub : PlaySubResult) (now : Int) :
    PlayResp × List (List WriteOp) :=
  if req.testMode then
    ({ status := 200, ok := true, test := true }, [])
  else if req.platform ≠ "android" then
    ({ status := 400, error := some "Only Android supported here" }, [])
  else if req.uid = "" then
    ({ status := 400, error := some "Missing uid" }, [])
  else if req.packageName = "" then
    ({ status := 400, error := some "Missing packageName" }, [])
  else if req.purchaseToken = "" then
    ({ status := 400, error := some "Missing purchaseToken" }, [])
  else if sub.ok = false then
    ({ status := 500, error := some "Verification failed" }, [])
  else
    let expiryMs : Int := sub.expiryTime.getD 0
    let active : Bool := decide (expiryMs > now)
    ({ status := 200, ok := true, isActive := some active,
       expiryTimeMillis := if expiryMs = 0 then none else some expiryMs },
     [[WriteOp.playUser req.uid active expiryMs req.productId now]])

/-! ## The expiry sweep (`api/tasks/expire.js`)

The sweep pages through a Firestore range query.  Firestore orders a
range query by the queried field ascending with the document id as the
final tiebreaker, and `startAfter(docSnap)` resumes strictly after that
document's `(field value, id)` key; a document whose queried field is
absent is not returned by the range query at all.  Field values are
modelled as numeric (`Timestamp` values read through `toMillis` behave
as their millisecond value). -/

/-- `expire.js` lines 26-27: millis from a number or `Timestamp`,
`0` when absent/non-numeric. -/
def toMillis (v : Option Int) : Int := v.getD 0

/-- `expire.js` lines 55-59: the best-known expiry across
`premium.expiresAt`, `premium.expiryTimeMillis` and the legacy
top-level `premiumExpiry`. -/
def coalescedExpiry (d : UserDoc) : Int :=
  max (toMillis d.premium.expiresAt)
    (max (toMillis d.premium.expiryTimeMillis) (toMillis d.premiumExpiry))

/-- The pagination key of a document for a query ordered by field `f`:
the field value, then the document id. -/
def docKey (f : UserDoc → Option Int) (p : String × UserDoc) : Int × String :=
  ((f p.2).getD 0, p.1)

/-- Strict lexicographic order on pagination keys. -/
def keyLt (a b : Int × String) : Prop :=
  a.1 < b.1 ∨ (a.1 = b.1 ∧ a.2 < b.2)

instance keyLt.instDecidable : DecidableRel keyLt := fun a b =>
  decidable_of_iff (a.1 < b.1 ∨ (a.1 = b.1 ∧ a.2 < b.2)) Iff.rfl

/-- Reflexive closure of `keyLt`. -/
def keyLe (a b : Int × String) : Prop := keyLt a b ∨ a = b

instance keyLe.instDecidable : DecidableRel keyLe := fun a b =>
  decidable_of_iff (keyLt a b ∨ a = b) Iff.rfl

theorem keyLt_irrefl (a : Int × String) : ¬ keyLt a a := by
  rintro (h | ⟨-, h⟩) <;> exact lt_irrefl _ h

theorem keyLt_trans {a b c : Int × String} (h₁ : keyLt a b) (h₂ : keyLt b c) : keyLt a c := by
  rcases h₁ with h₁ | ⟨e₁, h₁⟩ <;> rcases h₂ with h₂ | ⟨e₂, h₂⟩
  · exact Or.inl (lt_trans h₁ h₂)
  · exact Or.inl (e₂ ▸ h₁)
  · exact Or.inl (e₁ ▸ h₂)
  · exact Or.inr ⟨e₁.trans e₂, lt_trans h₁ h₂⟩

theorem keyLt_asymm {a b : Int × String} (h : keyLt a b) : ¬ keyLt b a := fun h' =>
  keyLt_irrefl a (keyLt_trans h h')

theorem keyLt_total (a b : Int × String) : keyLt a b ∨ a = b ∨ keyLt b a := by
  rcases lt_trichotomy a.1 b.1 with h | h | h
  · exact Or.inl (Or.inl h)
  · rcases lt_trichotomy a.2 b.2 with h' | h' | h'
    · exact Or.inl (Or.inr ⟨h, h'⟩)
    · exact Or.inr (Or.inl (Prod.ext h h'))
    · exact Or.inr (Or.inr (Or.inr ⟨h.symm, h'⟩))
  · exact Or.inr (Or.inr (Or.inl h))

theorem keyLe_total (a b : Int × String) : keyLe a b ∨ keyLe b a := by
  rcases keyLt_total a b with h | h | h
  · exact Or.inl (Or.inl h)
  · exact Or.inl (Or.inr h)
  · exact Or.inr (Or.inl h)

theorem keyLe_trans {a b c : Int × String} (h₁ : keyLe a b) (h₂ : keyLe b c) : keyLe a c := by
  rcases h₁ with h₁ | rfl
  · rcases h₂ with h₂ | rfl
    · exact Or.inl (keyLt_trans h₁ h₂)
    · exact Or.inl h₁
  · exact h₂

theorem keyLt_of_keyLe_of_ne {a b : Int × String} (h : keyLe a b) (hne : a ≠ b) :
    keyLt a b := by
  rcases h with h | rfl
  · exact h
  · exact absurd rfl hne

/-- Query order on documents: by key for the queried field. -/
def rLe (f : UserDoc → Option Int) (a b : String × UserDoc) : Prop :=
  keyLe (docKey f a) (docKey f b)

/-- Strict query order on documents. -/
def rLt (f : UserDoc → Option Int) (a b : String × UserDoc) : Prop :=
  keyLt (docKey f a) (docKey f b)

instance rLe.instDecidable (f : UserDoc → Option Int) : DecidableRel (rLe f) := fun a b =>
  decidable_of_iff (keyLe (docKey f a) (docKey f b)) Iff.rfl

instance rLt.instDecidable (f : UserDoc → Option Int) : DecidableRel (rLt f) := fun a b =>
  decidable_of_iff (keyLt (docKey f a) (docKey f b)) Iff.rfl

instance rLe.instIsTotal (f : UserDoc → Option Int) :
    IsTotal (String × UserDoc) (rLe f) := ⟨fun a b => keyLe_total _ _⟩

instance rLe.instIsTrans (f : UserDoc → Option Int) :
    IsTrans (String × UserDoc) (rLe f) := ⟨fun _ _ _ => keyLe_trans⟩

instance rLt.instIsAntisymm (f : UserDoc → Option Int) :
    IsAntisymm (String × UserDoc) (rLt f) :=
  ⟨fun a b h h' => absurd h' (keyLt_asymm h)⟩

/-- `startAfter`: a key qualifies when it lies strictly after the
cursor (or the query has no cursor yet). -/
def pastCursor (c : Option (Int × String)) (k : Int × String) : Bool :=
  match c with
  | none => true
  | some ck => decide (keyLt ck k)

/-- One page source: the documents matching the query filter and lying
after the cursor, in query order (`where ... orderBy(f, 'asc')` with
`startAfter`). -/
def queryDocs (m : UserDoc → Bool) (f : UserDoc → Option Int)
    (cursor : Option (Int × String)) (users : List (String × UserDoc)) :
    List (String × UserDoc) :=
  List.insertionSort (rLe f) (users.filter (fun p => m p.2 && pastCursor cursor (docKey f p)))

/-- `batch.set(docSnap.ref, update, { merge: true })` on an existing
document. -/
def setDoc : List (String × UserDoc) → String → UserDoc → List (String × UserDoc)
  | [], _, _ => []
  | p :: t, k, d => if p.1 == k then (k, d) :: t else p :: setDoc t k d

/-- One batched page write (`expire.js` lines 49-84): each page
document passing the guard is overwritten with its downgrade update. -/
def applyBatch (g : UserDoc → Bool) (upd : UserDoc → UserDoc)
    (users page : List (String × UserDoc)) : List (String × UserDoc) :=
  page.foldl (fun acc p => if g p.2 then setDoc acc p.1 (upd p.2) else acc) users

/-- The paginated `while (true)` loop of `sweep(fieldPath)`
(`expire.js` lines 36-89): fetch a page, stop when it is empty,
otherwise batch-downgrade the guarded documents, advance the cursor to
the last page document and continue.  `fuel` bounds the recursion; the
characterization theorems show `users.length + 1` always suffices. -/
def sweepLoop (m g : UserDoc → Bool) (f : UserDoc → Option Int) (upd : UserDoc → UserDoc)
    (pageSize : Nat) :
    Nat → List (String × UserDoc) → Option (Int × String) → Nat → Nat →
      List (String × UserDoc) × Nat × Nat
  | 0, users, _, processed, downgrades => (users, processed, downgrades)
  | fuel + 1, users, cursor, processed, downgrades =>
    let page := (queryDocs m f cursor users).take pageSize
    match page.getLast? with
    | none => (users, processed, downgrades)
    | some lastDoc =>
      sweepLoop m g f upd pageSize fuel (applyBatch g upd users page)
        (some (docKey f lastDoc)) (processed + page.length)
        (downgrades + (page.filter (fun p => g p.2)).length)

/-- Run one full pass from a cold cursor. -/
def runSweepPass (m g : UserDoc → Bool) (f : UserDoc → Option Int) (upd : UserDoc → UserDoc)
    (pageSize : Nat) (users : List (String × UserDoc)) :
    List (String × UserDoc) × Nat × Nat :=
  sweepLoop m g f upd pageSize (users.length + 1) users none 0 0

/-- `expire.js` lines 37-42: the pass query filter,
`premium.active == true` and `fieldPath <= nowMs` (absent fields are
not returned by a Firestore range query). -/
def expireQueryMatch (f : UserDoc → Option Int) (now : Int) (d : UserDoc) : Bool :=
  d.premium.active == some true &&
    (match f d with
     | some v => decide (v ≤ now)
     | none => false)

/-- `expire.js` line 61: downgrade only when the coalesced expiry is
positive and in the past. -/
def expireGuard (now : Int) (d : UserDoc) : Bool :=
  decide (0 < coalescedExpiry d) && decide (coalescedExpiry d ≤ now)

/-- `expire.js` lines 62-77: the downgrade update — `premium.active`
to `false` keeping the other `premium` fields, legacy `premiumExpiry`
reset to `0`, `lastDowngradedAt` stamped, and `plan` flipped to
`"free"` only when it was `"premium"`. -/
def sweepUpdate (now : Int) (d : UserDoc) : UserDoc :=
  { d with premium := { d.premium with active := some false },
           premiumExpiry := some 0,
           lastDowngradedAt := some now,
           plan := if d.plan == some "premium" then some "free" else d.plan }

/-- `expire.js` lines 100-105: the legacy pass query,
`plan == 'premium'` and `premiumExpiry <= nowMs`. -/
def legacyQueryMatch (now : Int) (d : UserDoc) : Bool :=
  d.plan == some "premium" &&
    (match d.premiumExpiry with
     | some v => decide (v ≤ now)
     | none => false)

/-- `expire.js` lines 116-117: the legacy guard checks only the legacy
`premiumExpiry` value. -/
def legacyGuard (now : Int) (d : UserDoc) : Bool :=
  decide (0 < toMillis d.premiumExpiry) && decide (toMillis d.premiumExpiry ≤ now)

/-- `expire.js` lines 118-127: the legacy downgrade update. -/
def legacyUpdate (now : Int) (d : UserDoc) : UserDoc :=
  { d with plan := some "free", premiumExpiry := some 0,
           premium := { d.premium with active := some false },
           lastDowngradedAt := some now }

/-- Field selector `premium.expiresAt`. -/
def fieldExpiresAt (d : UserDoc) : Option Int := d.premium.expiresAt

/-- Field selector `premium.expiryTimeMillis`. -/
def fieldExpiryTimeMillis (d : UserDoc) : Option Int := d.premium.expiryTimeMillis

/-- Field selector for the legacy top-level `premiumExpiry`. -/
def fieldPremiumExpiry (d : UserDoc) : Option Int := d.premiumExpiry

/-- One call of the `sweep(fieldPath)` helper (`expire.js` lines 31-90). -/
def sweepFieldPass (now : Int) (pageSize : Nat) (f : UserDoc → Option Int)
    (users : List (String × UserDoc)) : List (String × UserDoc) × Nat × Nat :=
  runSweepPass (expireQueryMatch f now) (expireGuard now) f (sweepUpdate now) pageSize users

/-- The legacy `plan`/`premiumExpiry` pass (`expire.js` lines 96-139). -/
def legacyPass (now : Int) (pageSize : Nat) (users : List (String × UserDoc)) :
    List (String × UserDoc) × Nat × Nat :=
  runSweepPass (legacyQueryMatch now) (legacyGuard now) fieldPremiumExpiry (legacyUpdate now)
    pageSize users

/-- One complete run of the expiry task (`expire.js` lines 92-142):
sweep `premium.expiresAt`, then `premium.expiryTimeMillis`, then the
legacy pass, accumulating the `processed` and `downgrades` counters. -/
def expireSweepRun (now : Int) (pageSize : Nat) (users : List (String × UserDoc)) :
    List (String × UserDoc) × Nat × Nat :=
  let r1 := sweepFieldPass now pageSize fieldExpiresAt users
  let r2 := sweepFieldPass now pageSize fieldExpiryTimeMillis r1.1
  let r3 := legacyPass now pageSize r2.1
  (r3.1, r1.2.1 + r2.2.1 + r3.2.1, r1.2.2 + r2.2.2 + r3.2.2)

/-- The per-document effect a complete run turns out to have (proved in
the characterization theorems): the first pass whose filter and guard
accept the document downgrades it; otherwise it is untouched. -/
def sweepResultDoc (now : Int) (d : UserDoc) : UserDoc :=
  if expireQueryMatch fieldExpiresAt now d && expireGuard now d then sweepUpdate now d
  else if expireQueryMatch fieldExpiryTimeMillis now d && expireGuard now d then
    sweepUpdate now d
  else if legacyQueryMatch now d && legacyGuard now d then legacyUpdate now d
  else d

/-- A document some pass of the run downgrades. -/
def downgradeable (now : Int) (d : UserDoc) : Bool :=
  (expireQueryMatch fieldExpiresAt now d && expireGuard now d) ||
    (expireQueryMatch fieldExpiryTimeMillis now d && expireGuard now d) ||
    (legacyQueryMatch now d && legacyGuard now d)

/-! ## Pagination machinery

The characterization of the paginated sweep loop: page boundaries do
not matter, one pass downgrades exactly the guarded matches of its
query, and the cursor never skips or revisits a document. -/

theorem pairwise_fst_ne {users : List (String × UserDoc)}
    (h : (users.map Prod.fst).Nodup) :
    users.Pairwise (fun a b => a.1 ≠ b.1) := by
  simpa [List.Nodup, List.pairwise_map] using h

theorem eq_of_fst_eq {users : List (String × UserDoc)}
    (h : (users.map Prod.fst).Nodup) {p q : String × UserDoc}
    (hp : p ∈ users) (hq : q ∈ users) (hfst : p.1 = q.1) : p = q := by
  by_contra hne
  have hsymm : Symmetric (fun a b : String × UserDoc => a.1 ≠ b.1) :=
    fun _ _ hab => Ne.symm hab
  exact List.Pairwise.forall hsymm (pairwise_fst_ne h) hp hq hne hfst

theorem pairwise_getLast {α : Type} {R : α → α → Prop} {x : α} {l : List α}
    (hp : l.Pairwise R) (hx : l.getLast? = some x) : ∀ a ∈ l, a = x ∨ R a x := by
  induction l with
  | nil => simp at hx
  | cons y t ih =>
    rcases List.pairwise_cons.mp hp with ⟨hy, ht⟩
    cases t with
    | nil =>
      intro a ha
      rcases List.mem_singleton.mp ha with rfl
      simp only [List.getLast?_singleton, Option.some.injEq] at hx
      exact Or.inl hx
    | cons z t' =>
      rw [List.getLast?_cons_cons] at hx
      intro a ha
      rcases List.mem_cons.mp ha with rfl | ha'
      · exact Or.inr (hy x (List.mem_of_mem_getLast? hx))
      · exact ih ht hx a ha'

theorem mem_queryDocs {m : UserDoc → Bool} {f : UserDoc → Option Int}
    {cursor : Option (Int × String)} {users : List (String × UserDoc)}
    {p : String × UserDoc} :
    p ∈ queryDocs m f cursor users ↔
      p ∈ users ∧ m p.2 = true ∧ pastCursor cursor (docKey f p) = true := by
  simp [queryDocs, List.mem_insertionSort, List.mem_filter, and_assoc]

theorem queryDocs_sorted (m : UserDoc → Bool) (f : UserDoc → Option Int)
    (cursor : Option (Int × String)) (users : List (String × UserDoc)) :
    (queryDocs m f cursor users).Pairwise (rLe f) :=
  List.sorted_insertionSort (rLe f) _

theorem queryDocs_perm (m : UserDoc → Bool) (f : UserDoc → Option Int)
    (cursor : Option (Int × String)) (users : List (String × UserDoc)) :
    List.Perm (queryDocs m f cursor users)
      (users.filter (fun p => m p.2 && pastCursor cursor (docKey f p))) :=
  List.perm_insertionSort _ _

theorem queryDocs_nodupkeys {users : List (String × UserDoc)}
    (h : (users.map Prod.fst).Nodup) (m : UserDoc → Bool) (f : UserDoc → Option Int)
    (cursor : Option (Int × String)) :
    ((queryDocs m f cursor users).map Prod.fst).Nodup := by
  have h1 : List.Sublist
      ((users.filter (fun p => m p.2 && pastCursor cursor (docKey f p))).map Prod.fst)
      (users.map Prod.fst) := (List.filter_sublist _).map _
  exact (((queryDocs_perm m f cursor users).map Prod.fst).nodup_iff).mpr (h1.nodup h)

theorem queryDocs_pairwise_lt {users : List (String × UserDoc)}
    (h : (users.map Prod.fst).Nodup) (m : UserDoc → Bool) (f : UserDoc → Option Int)
    (cursor : Option (Int × String)) :
    (queryDocs m f cursor users).Pairwise (rLt f) := by
  have hle := queryDocs_sorted m f cursor users
  have hne := pairwise_fst_ne (queryDocs_nodupkeys h m f cursor)
  refine (hle.and hne).imp ?_
  rintro a b ⟨h1, h2⟩
  refine keyLt_of_keyLe_of_ne h1 (fun e => h2 ?_)
  exact congrArg Prod.snd e

/-- The pointwise effect of one batched page write: a document whose id
occurs in the page and whose page data passes the guard is overwritten
with its update; every other document is untouched. -/
def batchMap (g : UserDoc → Bool) (upd : UserDoc → UserDoc)
    (page : List (String × UserDoc)) (p : String × UserDoc) : String × UserDoc :=
  if page.any (fun q => q.1 == p.1) && g p.2 then (p.1, upd p.2) else p

theorem batchMap_fst (g : UserDoc → Bool) (upd : UserDoc → UserDoc)
    (page : List (String × UserDoc)) (p : String × UserDoc) :
    (batchMap g upd page p).1 = p.1 := by
  unfold batchMap; split <;> rfl

theorem map_fst_map_batchMap (g : UserDoc → Bool) (upd : UserDoc → UserDoc)
    (page users : List (String × UserDoc)) :
    ((users.map (batchMap g upd page)).map Prod.fst) = users.map Prod.fst := by
  rw [List.map_map]
  exact List.map_congr_left (fun p _ => batchMap_fst g upd page p)

theorem setDoc_eq {users : List (String × UserDoc)}
    (h : (users.map Prod.fst).Nodup) {q : String × UserDoc} (hq : q ∈ users) (d : UserDoc) :
    setDoc users q.1 d = users.map (fun p => if p.1 == q.1 then (q.1, d) else p) := by
  induction users with
  | nil => rfl
  | cons p t ih =>
    simp only [List.map_cons, List.nodup_cons] at h
    rcases List.mem_cons.mp hq with rfl | hq'
    · have ht : ∀ r ∈ t, (r.1 == q.1) = false := by
        intro r hr
        have hmem : r.1 ∈ t.map Prod.fst := List.mem_map_of_mem _ hr
        have hne : q.1 ≠ r.1 := fun e => h.1 (e ▸ hmem)
        simp [Ne.symm hne]
      have hmap : t.map (fun p => if p.1 == q.1 then (q.1, d) else p) = t := by
        conv_rhs => rw [← List.map_id t]
        exact List.map_congr_left (fun r hr => by rw [ht r hr]; simp)
      simp only [beq_iff_eq] at hmap
      simp [setDoc, hmap]
    · have hqk : q.1 ∈ t.map Prod.fst := List.mem_map_of_mem _ hq'
      have hpq : p.1 ≠ q.1 := fun e => h.1 (e ▸ hqk)
      have hne : (p.1 == q.1) = false := by simp [hpq]
      simp only [setDoc, hne, Bool.false_eq_true, if_false, List.map_cons, if_neg hpq]
      exact congrArg (p :: ·) (ih h.2 hq')

theorem any_key_eq_false {l : List (String × UserDoc)} {k : String}
    (h : k ∉ l.map Prod.fst) : l.any (fun r => r.1 == k) = false := by
  rw [List.any_eq_false]
  intro r hr
  have hmem : r.1 ∈ l.map Prod.fst := List.mem_map_of_mem _ hr
  have : r.1 ≠ k := fun e => h (e ▸ hmem)
  simp [this]

/-- A batched page write is the pointwise `batchMap` over the whole
store, provided ids are unique and the page documents are store
documents. -/
theorem applyBatch_eq_map {g : UserDoc → Bool} {upd : UserDoc → UserDoc} :
    ∀ {page users : List (String × UserDoc)},
      (users.map Prod.fst).Nodup →
      (∀ p ∈ page, p ∈ users) →
      (page.map Prod.fst).Nodup →
      applyBatch g upd users page = users.map (batchMap g upd page) := by
  intro page
  induction page with
  | nil =>
    intro users _ _ _
    have hmap : users.map (batchMap g upd []) = users := by
      conv_rhs => rw [← List.map_id users]
      exact List.map_congr_left (fun p _ => by simp [batchMap])
    simpa [applyBatch] using hmap.symm
  | cons q rest ih =>
    intro users hnd hsub hpnd
    have hqu : q ∈ users := hsub q (List.mem_cons_self q rest)
    have hqrest : q.1 ∉ rest.map Prod.fst := by
      simp only [List.map_cons, List.nodup_cons] at hpnd
      exact hpnd.1
    have hrestany : rest.any (fun r => r.1 == q.1) = false := any_key_eq_false hqrest
    have step1 : (if g q.2 then setDoc users q.1 (upd q.2) else users) =
        users.map (batchMap g upd [q]) := by
      by_cases hg : g q.2
      · rw [if_pos hg, setDoc_eq hnd hqu]
        refine List.map_congr_left (fun p hp => ?_)
        by_cases hpq : p.1 = q.1
        · rcases eq_of_fst_eq hnd hp hqu hpq with rfl
          simp [batchMap, hg]
        · simp [batchMap, hpq, Ne.symm hpq]
      · rw [if_neg hg]
        conv_lhs => rw [← List.map_id users]
        refine List.map_congr_left (fun p hp => ?_)
        by_cases hpq : p.1 = q.1
        · rcases eq_of_fst_eq hnd hp hqu hpq with rfl
          simp [batchMap, hg]
        · simp [batchMap, Ne.symm hpq]
    have hnd1 : (((users.map (batchMap g upd [q])).map Prod.fst)).Nodup := by
      rw [map_fst_map_batchMap]; exact hnd
    have hsub1 : ∀ p ∈ rest, p ∈ users.map (batchMap g upd [q]) := by
      intro p hp
      have hpu : p ∈ users := hsub p (List.mem_cons_of_mem _ hp)
      have hne : p.1 ≠ q.1 := by
        have hmem : p.1 ∈ rest.map Prod.fst := List.mem_map_of_mem _ hp
        exact fun e => hqrest (e ▸ hmem)
      have hid : batchMap g upd [q] p = p := by simp [batchMap, Ne.symm hne]
      exact hid ▸ List.mem_map_of_mem _ hpu
    have hpnd1 : (rest.map Prod.fst).Nodup := by
      simp only [List.map_cons, List.nodup_cons] at hpnd
      exact hpnd.2
    have hstep : applyBatch g upd users (q :: rest) =
        applyBatch g upd (users.map (batchMap g upd [q])) rest := by
      simp only [applyBatch, List.foldl_cons]
      rw [← step1]
    rw [hstep, ih hnd1 hsub1 hpnd1, List.map_map]
    refine List.map_congr_left (fun p _ => ?_)
    by_cases hpq : p.1 = q.1
    · cases hg : g p.2 with
      | true =>
        have h1 : batchMap g upd [q] p = (p.1, upd p.2) := by
          simp [batchMap, hpq, hg]
        have h2 : rest.any (fun r => r.1 == p.1) = false := by
          rw [hpq]; exact hrestany
        have e1 : batchMap g upd rest (p.1, upd p.2) = (p.1, upd p.2) := by
          simp [batchMap, h2]
        have e2 : batchMap g upd (q :: rest) p = (p.1, upd p.2) := by
          simp [batchMap, List.any_cons, hpq, hg]
        rw [Function.comp_apply, h1, e1, e2]
      | false =>
        have h1 : batchMap g upd [q] p = p := by simp [batchMap, hg]
        have e2 : batchMap g upd (q :: rest) p = batchMap g upd rest p := by
          simp [batchMap, List.any_cons, hg]
        rw [Function.comp_apply, h1, e2]
    · have h1 : batchMap g upd [q] p = p := by simp [batchMap, Ne.symm hpq]
      have e2 : batchMap g upd (q :: rest) p = batchMap g upd rest p := by
        have hq' : (q.1 == p.1) = false := by simp [Ne.symm hpq]
        simp only [batchMap, List.any_cons, hq', Bool.false_or]
      rw [Function.comp_apply, h1, e2]

/-- After committing one page, the candidates of the query resumed at
the page's last document are exactly the dropped tail of the original
candidate list: the cursor neither skips nor revisits a document,
whatever the page size. -/
theorem queryDocs_after_page {m g : UserDoc → Bool} {f : UserDoc → Option Int}
    {upd : UserDoc → UserDoc} {users : List (String × UserDoc)}
    {cursor : Option (Int × String)} {ps : Nat} {lastDoc : String × UserDoc}
    (hnd : (users.map Prod.fst).Nodup)
    (hesc : ∀ d, m d = true → m (upd d) = false)
    (hlast : ((queryDocs m f cursor users).take ps).getLast? = some lastDoc) :
    queryDocs m f (some (docKey f lastDoc))
        (applyBatch g upd users ((queryDocs m f cursor users).take ps)) =
      (queryDocs m f cursor users).drop ps := by
  set C := queryDocs m f cursor users with hC
  have hCpw : C.Pairwise (rLt f) := queryDocs_pairwise_lt hnd m f cursor
  have hCnd : (C.map Prod.fst).Nodup := queryDocs_nodupkeys hnd m f cursor
  have hpage_mem : ∀ p ∈ C.take ps, p ∈ C := fun p hp => (List.take_sublist ps C).subset hp
  have hpage_users : ∀ p ∈ C.take ps, p ∈ users := fun p hp =>
    (mem_queryDocs.mp (hpage_mem p hp)).1
  have hpagend : ((C.take ps).map Prod.fst).Nodup :=
    ((List.take_sublist ps C).map Prod.fst).nodup hCnd
  have hlastmem : lastDoc ∈ C.take ps := List.mem_of_mem_getLast? hlast
  have hlastC : lastDoc ∈ C := hpage_mem _ hlastmem
  have hCpw' : (C.take ps ++ C.drop ps).Pairwise (rLt f) := by
    rw [List.take_append_drop]; exact hCpw
  obtain ⟨hpw_page, hpw_drop, hcross⟩ := List.pairwise_append.mp hCpw'
  have hlast_max : ∀ a ∈ C.take ps, a = lastDoc ∨ rLt f a lastDoc :=
    pairwise_getLast hpw_page hlast
  have hAB : applyBatch g upd users (C.take ps) = users.map (batchMap g upd (C.take ps)) :=
    applyBatch_eq_map hnd hpage_users hpagend
  have hmem : ∀ p,
      p ∈ queryDocs m f (some (docKey f lastDoc)) (users.map (batchMap g upd (C.take ps))) ↔
        p ∈ C.drop ps := by
    intro p
    rw [mem_queryDocs]
    constructor
    · rintro ⟨hpu', hmp, hpast⟩
      have hklt : keyLt (docKey f lastDoc) (docKey f p) := of_decide_eq_true hpast
      rcases List.mem_map.mp hpu' with ⟨p₀, hp₀, rfl⟩
      by_cases hcond : (((C.take ps).any (fun q => q.1 == p₀.1)) && g p₀.2) = true
      · exfalso
        have hb : batchMap g upd (C.take ps) p₀ = (p₀.1, upd p₀.2) := by
          simp [batchMap, hcond]
        rcases List.any_eq_true.mp (Bool.and_eq_true_iff.mp hcond).1 with ⟨q, hq, hqk⟩
        have hqeq : q = p₀ :=
          eq_of_fst_eq hnd (hpage_users q hq) hp₀ (by simpa using hqk)
        rw [hqeq] at hq
        have hmq : m p₀.2 = true := (mem_queryDocs.mp (hpage_mem p₀ hq)).2.1
        have hmfalse := hesc p₀.2 hmq
        rw [hb] at hmp
        have hmp' : m (upd p₀.2) = true := hmp
        rw [hmfalse] at hmp'
        exact Bool.false_ne_true hmp'
      · have hb : batchMap g upd (C.take ps) p₀ = p₀ := by
          simp only [batchMap, if_neg hcond]
        rw [hb] at hmp hpast hklt ⊢
        have hpastc : pastCursor cursor (docKey f p₀) = true := by
          cases cursor with
          | none => rfl
          | some c =>
            have h1 : pastCursor (some c) (docKey f lastDoc) = true :=
              (mem_queryDocs.mp hlastC).2.2
            have h2 : keyLt c (docKey f lastDoc) := of_decide_eq_true h1
            exact decide_eq_true (keyLt_trans h2 hklt)
        have hpC : p₀ ∈ C := by
          rw [hC]; exact mem_queryDocs.mpr ⟨hp₀, hmp, hpastc⟩
        have hsplit : p₀ ∈ C.take ps ++ C.drop ps := by
          rw [List.take_append_drop]; exact hpC
        rcases List.mem_append.mp hsplit with hin | hin
        · rcases hlast_max p₀ hin with rfl | hlt
          · exact absurd hklt (keyLt_irrefl _)
          · exact absurd hklt (keyLt_asymm hlt)
        · exact hin
    · intro hp
      have hpC : p ∈ C := (List.drop_sublist ps C).subset hp
      obtain ⟨hpu, hmp, -⟩ := mem_queryDocs.mp hpC
      have hlt : rLt f lastDoc p := hcross lastDoc hlastmem p hp
      have hnotpage : (C.take ps).any (fun q => q.1 == p.1) = false := by
        rw [List.any_eq_false]
        intro q hq hqk'
        have hqk : q.1 = p.1 := by simpa using hqk'
        have hqeq : q = p := eq_of_fst_eq hnd (hpage_users q hq) hpu hqk
        rw [hqeq] at hq
        exact keyLt_irrefl _ (hcross p hq p hp)
      have hb : batchMap g upd (C.take ps) p = p := by
        simp [batchMap, hnotpage]
      refine ⟨?_, hmp, ?_⟩
      · exact hb ▸ List.mem_map_of_mem _ hpu
      · exact decide_eq_true hlt
  have hnd' : (((users.map (batchMap g upd (C.take ps))).map Prod.fst)).Nodup := by
    rw [map_fst_map_batchMap]; exact hnd
  have h1nd :
      (queryDocs m f (some (docKey f lastDoc)) (users.map (batchMap g upd (C.take ps)))).Nodup :=
    (queryDocs_nodupkeys hnd' m f (some (docKey f lastDoc))).of_map Prod.fst
  have h2nd : (C.drop ps).Nodup :=
    (List.drop_sublist ps C).nodup (hCnd.of_map Prod.fst)
  have hperm := (List.perm_ext_iff_of_nodup h1nd h2nd).mpr hmem
  have hs1 := queryDocs_pairwise_lt hnd' m f (some (docKey f lastDoc))
  rw [hAB]
  exact List.eq_of_perm_of_sorted hperm hs1 hpw_drop

theorem page_any_eq_false {users page : List (String × UserDoc)} {p : String × UserDoc}
    (hnd : (users.map Prod.fst).Nodup) (hsub : ∀ q ∈ page, q ∈ users)
    (hp : p ∈ users) (hnotpage : p ∉ page) :
    page.any (fun q => q.1 == p.1) = false := by
  rw [List.any_eq_false]
  intro q hq hqk'
  have hqk : q.1 = p.1 := by simpa using hqk'
  have hqeq : q = p := eq_of_fst_eq hnd (hsub q hq) hp hqk
  rw [hqeq] at hq
  exact hnotpage hq

/-- Full characterization of the paginated pass loop: given enough
fuel, it downgrades exactly the guarded matches of the query beyond the
cursor (each exactly once), counts them, counts every examined
candidate, and leaves everything else untouched — for every page size
of at least one. -/
theorem sweepLoop_spec {m g : UserDoc → Bool} {f : UserDoc → Option Int}
    {upd : UserDoc → UserDoc} {ps : Nat}
    (hps : 1 ≤ ps) (hesc : ∀ d, m d = true → m (upd d) = false) :
    ∀ (fuel : Nat) (users : List (String × UserDoc)) (cursor : Option (Int × String))
      (pr dg : Nat),
      (users.map Prod.fst).Nodup →
      (queryDocs m f cursor users).length < fuel →
      sweepLoop m g f upd ps fuel users cursor pr dg =
        (users.map (fun p =>
           if m p.2 && g p.2 && pastCursor cursor (docKey f p) then (p.1, upd p.2) else p),
         pr + (users.filter (fun p => m p.2 && pastCursor cursor (docKey f p))).length,
         dg + (users.filter (fun p => m p.2 && g p.2 && pastCursor cursor (docKey f p))).length)
    := by
  intro fuel
  induction fuel with
  | zero => intro users cursor pr dg _ hlt; omega
  | succ n ih =>
    intro users cursor pr dg hnd hlt
    by_cases hempty : queryDocs m f cursor users = []
    · have hfilter : users.filter (fun p => m p.2 && pastCursor cursor (docKey f p)) = [] := by
        have hperm := queryDocs_perm m f cursor users
        rw [hempty] at hperm
        exact hperm.symm.eq_nil
      have hforall : ∀ p ∈ users, (m p.2 && pastCursor cursor (docKey f p)) = false := by
        intro p hp
        by_contra h
        have hmem : p ∈ users.filter (fun p => m p.2 && pastCursor cursor (docKey f p)) :=
          List.mem_filter.mpr ⟨hp, by revert h; cases (m p.2 && pastCursor cursor (docKey f p)) <;> simp⟩
        rw [hfilter] at hmem
        exact List.not_mem_nil p hmem
      have hforall2 : ∀ p ∈ users,
          (m p.2 && g p.2 && pastCursor cursor (docKey f p)) = false := by
        intro p hp
        have := hforall p hp
        revert this
        cases (m p.2) <;> cases (g p.2) <;> cases (pastCursor cursor (docKey f p)) <;> simp
      have hmap :
          users.map (fun p =>
            if m p.2 && g p.2 && pastCursor cursor (docKey f p) then (p.1, upd p.2) else p)
            = users := by
        conv_rhs => rw [← List.map_id users]
        exact List.map_congr_left (fun p hp => by rw [hforall2 p hp]; simp)
      have hfilter2 :
          users.filter (fun p => m p.2 && g p.2 && pastCursor cursor (docKey f p)) = [] :=
        List.filter_eq_nil.mpr (fun p hp => by rw [hforall2 p hp]; simp)
      have hpage : (queryDocs m f cursor users).take ps = [] := by rw [hempty]; simp
      simp only [sweepLoop, hpage, List.getLast?_nil, hmap, hfilter, hfilter2,
        List.length_nil, Nat.add_zero]
    · set C := queryDocs m f cursor users with hC
      have hCne : C ≠ [] := hempty
      have hCpos : 0 < C.length := List.length_pos.mpr hCne
      have hpage_ne : C.take ps ≠ [] := by
        cases hEl : C with
        | nil => exact absurd hEl hCne
        | cons c cs =>
          cases ps with
          | zero => omega
          | succ k => simp [hEl]
      obtain ⟨lastDoc, hlast⟩ : ∃ x, (C.take ps).getLast? = some x := by
        cases hpn : (C.take ps).getLast? with
        | none => exact absurd (List.getLast?_eq_none.mp hpn) hpage_ne
        | some x => exact ⟨x, rfl⟩
      have hpage_mem : ∀ p ∈ C.take ps, p ∈ C := fun p hp => (List.take_sublist ps C).subset hp
      have hpage_users : ∀ p ∈ C.take ps, p ∈ users := fun p hp =>
        (mem_queryDocs.mp (hpage_mem p hp)).1
      have hCnd : (C.map Prod.fst).Nodup := queryDocs_nodupkeys hnd m f cursor
      have hpagend : ((C.take ps).map Prod.fst).Nodup :=
        ((List.take_sublist ps C).map Prod.fst).nodup hCnd
      have hlastmem : lastDoc ∈ C.take ps := List.mem_of_mem_getLast? hlast
      have hlastC : lastDoc ∈ C := hpage_mem _ hlastmem
      have hCpairnd : C.Nodup := hCnd.of_map Prod.fst
      have hdisj : ∀ a ∈ C.take ps, a ∉ C.drop ps := by
        have hnd2 : (C.take ps ++ C.drop ps).Nodup := by
          rw [List.take_append_drop]; exact hCpairnd
        exact fun a ha hd => (List.nodup_append.mp hnd2).2.2 ha hd
      have hCpw : C.Pairwise (rLt f) := queryDocs_pairwise_lt hnd m f cursor
      have hCpw' : (C.take ps ++ C.drop ps).Pairwise (rLt f) := by
        rw [List.take_append_drop]; exact hCpw
      obtain ⟨hpw_page, hpw_drop, hcross⟩ := List.pairwise_append.mp hCpw'
      have hAB : applyBatch g upd users (C.take ps)
          = users.map (batchMap g upd (C.take ps)) :=
        applyBatch_eq_map hnd hpage_users hpagend
      have hnd' : ((applyBatch g upd users (C.take ps)).map Prod.fst).Nodup := by
        rw [hAB, map_fst_map_batchMap]; exact hnd
      have hafter := @queryDocs_after_page m g f upd users cursor ps lastDoc hnd hesc hlast
      rw [← hC] at hafter
      have hlen : (queryDocs m f (some (docKey f lastDoc))
          (applyBatch g upd users (C.take ps))).length < n := by
        rw [hafter, List.length_drop]
        omega
      have hrec := ih (applyBatch g upd users (C.take ps)) (some (docKey f lastDoc))
        (pr + (C.take ps).length)
        (dg + ((C.take ps).filter (fun p => g p.2)).length) hnd' hlen
      have hstep : sweepLoop m g f upd ps (n + 1) users cursor pr dg =
          sweepLoop m g f upd ps n (applyBatch g upd users (C.take ps))
            (some (docKey f lastDoc)) (pr + (C.take ps).length)
            (dg + ((C.take ps).filter (fun p => g p.2)).length) := by
        simp only [sweepLoop, ← hC, hlast]
      rw [hstep, hrec]
      -- remaining: the three components agree
      have hanyC : ∀ p ∈ users, p ∉ C.take ps →
          (C.take ps).any (fun q => q.1 == p.1) = false := fun p hp hnp =>
        page_any_eq_false hnd hpage_users hp hnp
      have hkltlast : ∀ {c : Int × String}, cursor = some c →
          keyLt c (docKey f lastDoc) := by
        intro c hcur
        have h1 : pastCursor cursor (docKey f lastDoc) = true :=
          (mem_queryDocs.mp hlastC).2.2
        rw [hcur] at h1
        exact of_decide_eq_true h1
      refine Prod.ext ?_ (Prod.ext ?_ ?_)
      · -- the store component
        show (applyBatch g upd users (C.take ps)).map _ = users.map _
        rw [hAB, List.map_map]
        refine List.map_congr_left (fun p hp => ?_)
        rw [Function.comp_apply]
        by_cases hm : m p.2 = true
        · by_cases hpc : pastCursor cursor (docKey f p) = true
          · have hpC : p ∈ C := mem_queryDocs.mpr ⟨hp, hm, hpc⟩
            have hsplit : p ∈ C.take ps ++ C.drop ps := by
              rw [List.take_append_drop]; exact hpC
            rcases List.mem_append.mp hsplit with hin | hin
            · have hany : (C.take ps).any (fun q => q.1 == p.1) = true :=
                List.any_eq_true.mpr ⟨p, hin, by simp⟩
              by_cases hg : g p.2 = true
              · have hb : batchMap g upd (C.take ps) p = (p.1, upd p.2) := by
                  simp [batchMap, hany, hg]
                have hmu : m (upd p.2) = false := hesc p.2 hm
                have hnc1 : ¬((m (p.1, upd p.2).2 && g (p.1, upd p.2).2 &&
                    pastCursor (some (docKey f lastDoc)) (docKey f (p.1, upd p.2)))
                    = true) := by
                  intro h
                  have h' : m (upd p.2) = true :=
                    (Bool.and_eq_true_iff.mp (Bool.and_eq_true_iff.mp h).1).1
                  rw [hmu] at h'
                  exact Bool.false_ne_true h'
                have hc2 : (m p.2 && g p.2 && pastCursor cursor (docKey f p)) = true := by
                  simp [hm, hg, hpc]
                rw [hb, if_neg hnc1, if_pos hc2]
              · have hgf : g p.2 = false := by
                  revert hg; cases (g p.2) <;> simp
                have hb : batchMap g upd (C.take ps) p = p := by
                  simp [batchMap, hgf]
                have hnc1 : ¬((m p.2 && g p.2 &&
                    pastCursor (some (docKey f lastDoc)) (docKey f p)) = true) := by
                  rw [hgf]; simp
                have hnc2 : ¬((m p.2 && g p.2 && pastCursor cursor (docKey f p)) = true) := by
                  rw [hgf]; simp
                rw [hb, if_neg hnc1, if_neg hnc2]
            · have hnp : p ∉ C.take ps := fun hin' => hdisj p hin' hin
              have hb : batchMap g upd (C.take ps) p = p := by
                simp [batchMap, hanyC p hp hnp]
              have hpl : pastCursor (some (docKey f lastDoc)) (docKey f p) = true :=
                decide_eq_true (hcross lastDoc hlastmem p hin)
              by_cases hg : g p.2 = true
              · have hc1 : (m p.2 && g p.2 &&
                    pastCursor (some (docKey f lastDoc)) (docKey f p)) = true := by
                  simp [hm, hg, hpl]
                have hc2 : (m p.2 && g p.2 && pastCursor cursor (docKey f p)) = true := by
                  simp [hm, hg, hpc]
                rw [hb, if_pos hc1, if_pos hc2]
              · have hgf : g p.2 = false := by
                  revert hg; cases (g p.2) <;> simp
                have hnc1 : ¬((m p.2 && g p.2 &&
                    pastCursor (some (docKey f lastDoc)) (docKey f p)) = true) := by
                  rw [hgf]; simp
                have hnc2 : ¬((m p.2 && g p.2 && pastCursor cursor (docKey f p)) = true) := by
                  rw [hgf]; simp
                rw [hb, if_neg hnc1, if_neg hnc2]
          · -- not past the old cursor: not a candidate, and not past the new one either
            have hnpC : p ∉ C := fun hpC => hpc ((mem_queryDocs.mp hpC).2.2)
            have hnp : p ∉ C.take ps := fun hin => hnpC (hpage_mem p hin)
            have hb : batchMap g upd (C.take ps) p = p := by
              simp [batchMap, hanyC p hp hnp]
            have hpcfalse : pastCursor cursor (docKey f p) = false := by
              revert hpc; cases (pastCursor cursor (docKey f p)) <;> simp
            obtain ⟨c, hcur⟩ : ∃ c, cursor = some c := by
              cases cursor with
              | none => exact absurd hpcfalse (by simp [pastCursor])
              | some c => exact ⟨c, rfl⟩
            have hnotlt : ¬ keyLt c (docKey f p) := by
              have h' : pastCursor (some c) (docKey f p) = false := hcur ▸ hpcfalse
              exact of_decide_eq_false h'
            have hplfalse : pastCursor (some (docKey f lastDoc)) (docKey f p) = false :=
              decide_eq_false (fun hk => hnotlt (keyLt_trans (hkltlast hcur) hk))
            have hnc1 : ¬((m p.2 && g p.2 &&
                pastCursor (some (docKey f lastDoc)) (docKey f p)) = true) := by
              rw [hplfalse]; simp
            have hnc2 : ¬((m p.2 && g p.2 && pastCursor cursor (docKey f p)) = true) := by
              rw [hpcfalse]; simp
            rw [hb, if_neg hnc1, if_neg hnc2]
        · have hmf : m p.2 = false := by
            revert hm; cases (m p.2) <;> simp
          have hnpC : p ∉ C := fun hpC => by
            have h' := (mem_queryDocs.mp hpC).2.1
            rw [hmf] at h'
            exact Bool.false_ne_true h'
          have hnp : p ∉ C.take ps := fun hin => hnpC (hpage_mem p hin)
          have hb : batchMap g upd (C.take ps) p = p := by
            simp [batchMap, hanyC p hp hnp]
          have hnc1 : ¬((m p.2 && g p.2 &&
              pastCursor (some (docKey f lastDoc)) (docKey f p)) = true) := by
            rw [hmf]; simp
          have hnc2 : ¬((m p.2 && g p.2 && pastCursor cursor (docKey f p)) = true) := by
            rw [hmf]; simp
          rw [hb, if_neg hnc1, if_neg hnc2]
      · -- the processed counter
        have h1 : (users.filter (fun p => m p.2 && pastCursor cursor (docKey f p))).length
            = C.length := ((queryDocs_perm m f cursor users).length_eq).symm
        have hperm2 := queryDocs_perm m f (some (docKey f lastDoc))
          (applyBatch g upd users (C.take ps))
        have h2 : ((applyBatch g upd users (C.take ps)).filter
            (fun p => m p.2 && pastCursor (some (docKey f lastDoc)) (docKey f p))).length
            = (C.drop ps).length := by
          rw [← hperm2.length_eq, hafter]
        have h3 : (C.take ps).length + (C.drop ps).length = C.length := by
          rw [← List.length_append, List.take_append_drop]
        simp only [h2, h1]
        omega
      · -- the downgrade counter
        have e1 : (users.filter
            (fun p => m p.2 && g p.2 && pastCursor cursor (docKey f p))).length
            = ((users.filter (fun p => m p.2 && pastCursor cursor (docKey f p))).filter
                (fun p => g p.2)).length := by
          rw [List.filter_filter]
          exact congrArg List.length (List.filter_congr (fun p _ => by
            cases (m p.2) <;> cases (g p.2) <;> cases (pastCursor cursor (docKey f p)) <;> rfl))
        have e2 : ((users.filter (fun p => m p.2 && pastCursor cursor (docKey f p))).filter
            (fun p => g p.2)).length = (C.filter (fun p => g p.2)).length :=
          (((queryDocs_perm m f cursor users).filter (fun p => g p.2)).length_eq).symm
        have e3 : C.filter (fun p => g p.2)
            = (C.take ps).filter (fun p => g p.2) ++ (C.drop ps).filter (fun p => g p.2) := by
          rw [← List.filter_append, List.take_append_drop]
        have hperm2 := queryDocs_perm m f (some (docKey f lastDoc))
          (applyBatch g upd users (C.take ps))
        have hpermdrop : List.Perm (C.drop ps)
            ((applyBatch g upd users (C.take ps)).filter
              (fun p => m p.2 && pastCursor (some (docKey f lastDoc)) (docKey f p))) := by
          rw [← hafter]; exact hperm2
        have e4 : ((applyBatch g upd users (C.take ps)).filter
            (fun p => m p.2 && g p.2 && pastCursor (some (docKey f lastDoc)) (docKey f p))).length
            = (((applyBatch g upd users (C.take ps)).filter
                (fun p => m p.2 && pastCursor (some (docKey f lastDoc)) (docKey f p))).filter
                (fun p => g p.2)).length := by
          rw [List.filter_filter]
          exact congrArg List.length (List.filter_congr (fun p _ => by
            cases (m p.2) <;> cases (g p.2) <;>
              cases (pastCursor (some (docKey f lastDoc)) (docKey f p)) <;> rfl))
        have e5 : (((applyBatch g upd users (C.take ps)).filter
            (fun p => m p.2 && pastCursor (some (docKey f lastDoc)) (docKey f p))).filter
            (fun p => g p.2)).length = ((C.drop ps).filter (fun p => g p.2)).length :=
          ((hpermdrop.filter (fun p => g p.2)).length_eq).symm
        have e6 : (C.filter (fun p => g p.2)).length
            = ((C.take ps).filter (fun p => g p.2)).length
              + ((C.drop ps).filter (fun p => g p.2)).length := by
          rw [e3, List.length_append]
        simp only [e4, e5, e1, e2]
        omega

/-- A full cold-cursor pass: downgrades exactly the guarded matches,
examines exactly the matches, for any page size of at least one. -/
theorem runSweepPass_spec {m g : UserDoc → Bool} {f : UserDoc → Option Int}
    {upd : UserDoc → UserDoc} {ps : Nat}
    (hps : 1 ≤ ps) (hesc : ∀ d, m d = true → m (upd d) = false)
    {users : List (String × UserDoc)} (hnd : (users.map Prod.fst).Nodup) :
    runSweepPass m g f upd ps users =
      (users.map (fun p => if m p.2 && g p.2 then (p.1, upd p.2) else p),
       (users.filter (fun p => m p.2)).length,
       (users.filter (fun p => m p.2 && g p.2)).length) := by
  have hlen : (queryDocs m f none users).length < users.length + 1 := by
    have h1 := (queryDocs_perm m f none users).length_eq
    have h2 := List.length_filter_le
      (fun p => m p.2 && pastCursor none (docKey f p)) users
    omega
  have h := @sweepLoop_spec m g f upd ps hps hesc (users.length + 1) users none 0 0 hnd hlen
  rw [runSweepPass, h]
  simp [pastCursor]

theorem expireQueryMatch_sweepUpdate (f : UserDoc → Option Int) (now now' : Int)
    (d : UserDoc) : expireQueryMatch f now (sweepUpdate now' d) = false := by
  simp [expireQueryMatch, sweepUpdate]

theorem legacyQueryMatch_sweepUpdate (now now' : Int) (d : UserDoc) :
    legacyQueryMatch now (sweepUpdate now' d) = false := by
  by_cases h : (d.plan == some "premium") = true
  · simp [legacyQueryMatch, sweepUpdate, h]
  · have h' : (d.plan == some "premium") = false := by
      revert h; cases (d.plan == some "premium") <;> simp
    simp [legacyQueryMatch, sweepUpdate, h']

theorem expireQueryMatch_legacyUpdate (f : UserDoc → Option Int) (now now' : Int)
    (d : UserDoc) : expireQueryMatch f now (legacyUpdate now' d) = false := by
  simp [expireQueryMatch, legacyUpdate]

theorem legacyQueryMatch_legacyUpdate (now now' : Int) (d : UserDoc) :
    legacyQueryMatch now (legacyUpdate now' d) = false := by
  simp [legacyQueryMatch, legacyUpdate]

theorem countP_three {α : Type} (l : List α) (a b c : α → Bool) :
    l.countP a + l.countP (fun x => !a x && b x)
      + l.countP (fun x => !a x && !b x && c x)
      = l.countP (fun x => a x || b x || c x) := by
  induction l with
  | nil => rfl
  | cons x t ih =>
    cases ha : a x <;> cases hb : b x <;> cases hc : c x <;>
      simp [List.countP_cons, ha, hb, hc] <;> omega

theorem bool_neg_of_eq_false {b : Bool} (h : b = false) : ¬(b = true) := by
  rw [h]; simp

theorem bool_eq_false_of_not {b : Bool} (h : ¬(b = true)) : b = false := by
  revert h; cases b <;> simp

/-- The pointwise effect of the three composed passes on one document
is `sweepResultDoc`. -/
theorem sweepResultDoc_compose (now : Int) (p q1 q2 : String × UserDoc)
    (h1 : q1 = if expireQueryMatch fieldExpiresAt now p.2 && expireGuard now p.2 then
        (p.1, sweepUpdate now p.2) else p)
    (h2 : q2 = if expireQueryMatch fieldExpiryTimeMillis now q1.2 && expireGuard now q1.2 then
        (q1.1, sweepUpdate now q1.2) else q1) :
    (if legacyQueryMatch now q2.2 && legacyGuard now q2.2 then
        (q2.1, legacyUpdate now q2.2) else q2) = (p.1, sweepResultDoc now p.2) := by
  by_cases hA : (expireQueryMatch fieldExpiresAt now p.2 && expireGuard now p.2) = true
  · rw [if_pos hA] at h1
    have e2 : q1.2 = sweepUpdate now p.2 := by rw [h1]
    have hB : (expireQueryMatch fieldExpiryTimeMillis now q1.2 && expireGuard now q1.2)
        = false := by
      rw [e2, expireQueryMatch_sweepUpdate]; rfl
    rw [if_neg (bool_neg_of_eq_false hB)] at h2
    have hCc : (legacyQueryMatch now q2.2 && legacyGuard now q2.2) = false := by
      rw [h2, e2, legacyQueryMatch_sweepUpdate]; rfl
    rw [if_neg (bool_neg_of_eq_false hCc), h2, h1, sweepResultDoc, if_pos hA]
  · rw [if_neg hA] at h1
    by_cases hB : (expireQueryMatch fieldExpiryTimeMillis now p.2 && expireGuard now p.2) = true
    · have hB' : (expireQueryMatch fieldExpiryTimeMillis now q1.2 && expireGuard now q1.2)
          = true := by rw [h1]; exact hB
      rw [if_pos hB'] at h2
      have e2 : q2.2 = sweepUpdate now q1.2 := by rw [h2]
      have hCc : (legacyQueryMatch now q2.2 && legacyGuard now q2.2) = false := by
        rw [e2, legacyQueryMatch_sweepUpdate]; rfl
      rw [if_neg (bool_neg_of_eq_false hCc), h2, h1, sweepResultDoc, if_neg hA, if_pos hB]
    · have hB' : ¬((expireQueryMatch fieldExpiryTimeMillis now q1.2 && expireGuard now q1.2)
          = true) := by rw [h1]; exact hB
      rw [if_neg hB'] at h2
      by_cases hCc : (legacyQueryMatch now p.2 && legacyGuard now p.2) = true
      · have hCc' : (legacyQueryMatch now q2.2 && legacyGuard now q2.2) = true := by
          rw [h2, h1]; exact hCc
        rw [if_pos hCc', h2, h1, sweepResultDoc, if_neg hA, if_neg hB, if_pos hCc]
      · have hCc' : ¬((legacyQueryMatch now q2.2 && legacyGuard now q2.2) = true) := by
          rw [h2, h1]; exact hCc
        rw [if_neg hCc', h2, h1, sweepResultDoc, if_neg hA, if_neg hB, if_neg hCc]

/-- Characterization of one complete sweep run: every document is
mapped to its `sweepResultDoc`, and the downgrade counter counts the
`downgradeable` documents — for every page size of at least one and
regardless of page-boundary alignment. -/
theorem expireSweepRun_spec (now : Int) {ps : Nat} (hps : 1 ≤ ps)
    {users : List (String × UserDoc)} (hnd : (users.map Prod.fst).Nodup) :
    (expireSweepRun now ps users).1 = users.map (fun p => (p.1, sweepResultDoc now p.2)) ∧
    (expireSweepRun now ps users).2.2 = users.countP (fun p => downgradeable now p.2) := by
  have hesc1 : ∀ d, expireQueryMatch fieldExpiresAt now d = true →
      expireQueryMatch fieldExpiresAt now (sweepUpdate now d) = false :=
    fun d _ => expireQueryMatch_sweepUpdate fieldExpiresAt now now d
  have hesc2 : ∀ d, expireQueryMatch fieldExpiryTimeMillis now d = true →
      expireQueryMatch fieldExpiryTimeMillis now (sweepUpdate now d) = false :=
    fun d _ => expireQueryMatch_sweepUpdate fieldExpiryTimeMillis now now d
  have hesc3 : ∀ d, legacyQueryMatch now d = true →
      legacyQueryMatch now (legacyUpdate now d) = false :=
    fun d _ => legacyQueryMatch_legacyUpdate now now d
  have h1 := @runSweepPass_spec (expireQueryMatch fieldExpiresAt now) (expireGuard now)
    fieldExpiresAt (sweepUpdate now) ps hps hesc1 users hnd
  have hnd1 : (((users.map (fun p =>
      if expireQueryMatch fieldExpiresAt now p.2 && expireGuard now p.2 then
        (p.1, sweepUpdate now p.2) else p)).map Prod.fst)).Nodup := by
    rw [List.map_map]
    have hcong : users.map (Prod.fst ∘ fun p =>
        if expireQueryMatch fieldExpiresAt now p.2 && expireGuard now p.2 then
          (p.1, sweepUpdate now p.2) else p) = users.map Prod.fst :=
      List.map_congr_left (fun p _ => by dsimp only [Function.comp_apply]; split <;> rfl)
    rw [hcong]; exact hnd
  have h2 := @runSweepPass_spec (expireQueryMatch fieldExpiryTimeMillis now) (expireGuard now)
    fieldExpiryTimeMillis (sweepUpdate now) ps hps hesc2 _ hnd1
  have hnd2 : ((((users.map (fun p =>
      if expireQueryMatch fieldExpiresAt now p.2 && expireGuard now p.2 then
        (p.1, sweepUpdate now p.2) else p)).map (fun p =>
      if expireQueryMatch fieldExpiryTimeMillis now p.2 && expireGuard now p.2 then
        (p.1, sweepUpdate now p.2) else p)).map Prod.fst)).Nodup := by
    rw [List.map_map]
    have hcong : (users.map (fun p =>
        if expireQueryMatch fieldExpiresAt now p.2 && expireGuard now p.2 then
          (p.1, sweepUpdate now p.2) else p)).map (Prod.fst ∘ fun p =>
        if expireQueryMatch fieldExpiryTimeMillis now p.2 && expireGuard now p.2 then
          (p.1, sweepUpdate now p.2) else p)
        = (users.map (fun p =>
        if expireQueryMatch fieldExpiresAt now p.2 && expireGuard now p.2 then
          (p.1, sweepUpdate now p.2) else p)).map Prod.fst :=
      List.map_congr_left (fun p _ => by dsimp only [Function.comp_apply]; split <;> rfl)
    rw [hcong]; exact hnd1
  have h3 := @runSweepPass_spec (legacyQueryMatch now) (legacyGuard now)
    fieldPremiumExpiry (legacyUpdate now) ps hps hesc3 _ hnd2
  constructor
  · show (expireSweepRun now ps users).1 = _
    simp only [expireSweepRun, sweepFieldPass, legacyPass]
    rw [h1]
    simp only
    rw [h2]
    simp only
    rw [h3]
    simp only
    rw [List.map_map, List.map_map]
    exact List.map_congr_left (fun p _ => sweepResultDoc_compose now p _ _ rfl rfl)
  · show (expireSweepRun now ps users).2.2 = _
    simp only [expireSweepRun, sweepFieldPass, legacyPass]
    rw [h1]
    simp only
    rw [h2]
    simp only
    rw [h3]
    simp only
    rw [← List.countP_eq_length_filter, ← List.countP_eq_length_filter,
      ← List.countP_eq_length_filter, List.countP_map, List.countP_map, List.countP_map]
    have e2 : users.countP ((fun p => expireQueryMatch fieldExpiryTimeMillis now p.2 &&
        expireGuard now p.2) ∘ (fun p =>
          if expireQueryMatch fieldExpiresAt now p.2 && expireGuard now p.2 then
            (p.1, sweepUpdate now p.2) else p))
        = users.countP (fun p =>
            !(expireQueryMatch fieldExpiresAt now p.2 && expireGuard now p.2) &&
            (expireQueryMatch fieldExpiryTimeMillis now p.2 && expireGuard now p.2)) := by
      refine List.countP_congr (fun p _ => ?_)
      dsimp only [Function.comp_apply]
      by_cases hA : (expireQueryMatch fieldExpiresAt now p.2 && expireGuard now p.2) = true
      · rw [if_pos hA, hA]
        have hB : (expireQueryMatch fieldExpiryTimeMillis now (sweepUpdate now p.2) &&
            expireGuard now (sweepUpdate now p.2)) = false := by
          rw [expireQueryMatch_sweepUpdate]; rfl
        show ((expireQueryMatch fieldExpiryTimeMillis now (sweepUpdate now p.2) &&
            expireGuard now (sweepUpdate now p.2)) = true) ↔ _
        rw [hB]
        simp
      · rw [if_neg hA, bool_eq_false_of_not hA]
        simp
    have e3 : users.countP (((fun p => legacyQueryMatch now p.2 && legacyGuard now p.2) ∘
        (fun p => if expireQueryMatch fieldExpiryTimeMillis now p.2 && expireGuard now p.2 then
            (p.1, sweepUpdate now p.2) else p)) ∘ (fun p =>
          if expireQueryMatch fieldExpiresAt now p.2 && expireGuard now p.2 then
            (p.1, sweepUpdate now p.2) else p))
        = users.countP (fun p =>
            !(expireQueryMatch fieldExpiresAt now p.2 && expireGuard now p.2) &&
            !(expireQueryMatch fieldExpiryTimeMillis now p.2 && expireGuard now p.2) &&
            (legacyQueryMatch now p.2 && legacyGuard now p.2)) := by
      refine List.countP_congr (fun p _ => ?_)
      dsimp only [Function.comp_apply]
      by_cases hA : (expireQueryMatch fieldExpiresAt now p.2 && expireGuard now p.2) = true
      · rw [if_pos hA, hA]
        have hB : (expireQueryMatch fieldExpiryTimeMillis now (sweepUpdate now p.2) &&
            expireGuard now (sweepUpdate now p.2)) = false := by
          rw [expireQueryMatch_sweepUpdate]; rfl
        rw [if_neg (bool_neg_of_eq_false hB)]
        have hCc : (legacyQueryMatch now (sweepUpdate now p.2) &&
            legacyGuard now (sweepUpdate now p.2)) = false := by
          rw [legacyQueryMatch_sweepUpdate]; rfl
        show ((legacyQueryMatch now (sweepUpdate now p.2) &&
            legacyGuard now (sweepUpdate now p.2)) = true) ↔ _
        rw [hCc]
        simp
      · rw [if_neg hA, bool_eq_false_of_not hA]
        by_cases hB : (expireQueryMatch fieldExpiryTimeMillis now p.2 &&
            expireGuard now p.2) = true
        · rw [if_pos hB, hB]
          have hCc : (legacyQueryMatch now (sweepUpdate now p.2) &&
              legacyGuard now (sweepUpdate now p.2)) = false := by
            rw [legacyQueryMatch_sweepUpdate]; rfl
          show ((legacyQueryMatch now (sweepUpdate now p.2) &&
              legacyGuard now (sweepUpdate now p.2)) = true) ↔ _
          rw [hCc]
          simp
        · rw [if_neg hB, bool_eq_false_of_not hB]
          simp
    rw [e2, e3]
    simp only [downgradeable]
    exact countP_three users _ _ _

/-! ## Per-document facts about the sweep result -/

theorem sweepResultDoc_preserves (now : Int) (d : UserDoc) :
    (sweepResultDoc now d).premium.expiresAt = d.premium.expiresAt ∧
    (sweepResultDoc now d).premium.expiryTimeMillis = d.premium.expiryTimeMillis := by
  unfold sweepResultDoc
  split_ifs <;> simp [sweepUpdate, legacyUpdate]

theorem sweepResultDoc_eq_self {now : Int} {d : UserDoc}
    (h : downgradeable now d = false) : sweepResultDoc now d = d := by
  unfold downgradeable at h
  unfold sweepResultDoc
  by_cases h1 : (expireQueryMatch fieldExpiresAt now d && expireGuard now d) = true
  · rw [h1] at h; simp at h
  · rw [if_neg h1]
    by_cases h2 : (expireQueryMatch fieldExpiryTimeMillis now d && expireGuard now d) = true
    · rw [h2] at h; simp at h
    · rw [if_neg h2]
      by_cases h3 : (legacyQueryMatch now d && legacyGuard now d) = true
      · rw [h3] at h; simp at h
      · rw [if_neg h3]

theorem downgradeable_sweepResultDoc (now : Int) (d : UserDoc) :
    downgradeable now (sweepResultDoc now d) = false := by
  by_cases hd : downgradeable now d = true
  · unfold sweepResultDoc
    split_ifs with h1 h2 h3
    · simp [downgradeable, expireQueryMatch_sweepUpdate, legacyQueryMatch_sweepUpdate]
    · simp [downgradeable, expireQueryMatch_sweepUpdate, legacyQueryMatch_sweepUpdate]
    · simp [downgradeable, expireQueryMatch_legacyUpdate, legacyQueryMatch_legacyUpdate]
    · exact absurd hd (by simp [downgradeable, bool_eq_false_of_not h1,
        bool_eq_false_of_not h2, bool_eq_false_of_not h3])
  · have hd' : downgradeable now d = false := bool_eq_false_of_not hd
    rw [sweepResultDoc_eq_self hd']
    exact hd'

theorem sweepResultDoc_downgraded {now : Int} {d : UserDoc}
    (h : downgradeable now d = true) :
    (sweepResultDoc now d).premiumExpiry = some 0 ∧
    (sweepResultDoc now d).premium.active = some false := by
  unfold sweepResultDoc
  split_ifs with h1 h2 h3
  · simp [sweepUpdate]
  · simp [sweepUpdate]
  · simp [legacyUpdate]
  · exact absurd h (by simp [downgradeable, bool_eq_false_of_not h1,
      bool_eq_false_of_not h2, bool_eq_false_of_not h3])

theorem toMillis_le_coalescedExpiry (d : UserDoc) :
    toMillis d.premiumExpiry ≤ coalescedExpiry d := by
  unfold coalescedExpiry
  exact le_max_of_le_right (le_max_right _ _)

theorem sweepResultDoc_guard (now : Int) (d : UserDoc) :
    (sweepResultDoc now d ≠ d →
      (0 < coalescedExpiry d ∧ coalescedExpiry d ≤ now) ∨
      (0 < toMillis d.premiumExpiry ∧ toMillis d.premiumExpiry ≤ now)) ∧
    (coalescedExpiry d ≤ 0 → sweepResultDoc now d = d) := by
  constructor
  · intro hne
    by_cases hd : downgradeable now d = true
    · unfold downgradeable at hd
      by_cases h1 : (expireQueryMatch fieldExpiresAt now d && expireGuard now d) = true
      · have hg : expireGuard now d = true := (Bool.and_eq_true_iff.mp h1).2
        unfold expireGuard at hg
        obtain ⟨hg1, hg2⟩ := Bool.and_eq_true_iff.mp hg
        exact Or.inl ⟨of_decide_eq_true hg1, of_decide_eq_true hg2⟩
      · by_cases h2 : (expireQueryMatch fieldExpiryTimeMillis now d && expireGuard now d) = true
        · have hg : expireGuard now d = true := (Bool.and_eq_true_iff.mp h2).2
          unfold expireGuard at hg
          obtain ⟨hg1, hg2⟩ := Bool.and_eq_true_iff.mp hg
          exact Or.inl ⟨of_decide_eq_true hg1, of_decide_eq_true hg2⟩
        · have h3 : (legacyQueryMatch now d && legacyGuard now d) = true := by
            rw [bool_eq_false_of_not h1, bool_eq_false_of_not h2] at hd
            simpa using hd
          have hg : legacyGuard now d = true := (Bool.and_eq_true_iff.mp h3).2
          unfold legacyGuard at hg
          obtain ⟨hg1, hg2⟩ := Bool.and_eq_true_iff.mp hg
          exact Or.inr ⟨of_decide_eq_true hg1, of_decide_eq_true hg2⟩
    · exact absurd (sweepResultDoc_eq_self (bool_eq_false_of_not hd)) hne
  · intro hle
    have hg1 : expireGuard now d = false := by
      unfold expireGuard
      have : ¬(0 < coalescedExpiry d) := by omega
      rw [decide_eq_false this]
      rfl
    have hg2 : legacyGuard now d = false := by
      unfold legacyGuard
      have hlepe := toMillis_le_coalescedExpiry d
      have : ¬(0 < toMillis d.premiumExpiry) := by omega
      rw [decide_eq_false this]
      rfl
    refine sweepResultDoc_eq_self ?_
    unfold downgradeable
    rw [hg1, hg2]
    simp

/-! ## Claim C5: sweep correctness -/

/-- A premium-plan account whose only (positive, already expired)
expiry value sits in `premium.expiresAt` while `premium.active` is
`false` and the legacy `premiumExpiry` is absent. -/
def c5doc : UserDoc :=
  { plan := some "premium", premium := { active := some false, expiresAt := some 5 } }

/-- Claim C5 as stated is false: `c5doc` is a premium account
(`plan = "premium"`) with expiry `5 ≤ now = 100`, but no pass of the
sweep returns it (the `premium.*` passes require
`premium.active == true`, the legacy pass requires a present legacy
`premiumExpiry`): a complete run performs zero downgrades and leaves
the document unchanged, while the claim requires it to be downgraded
to `free`. -/
theorem C5_counterexample :
    (expireSweepRun 100 300 [("u1", c5doc)]).1 = [("u1", c5doc)] ∧
    (expireSweepRun 100 300 [("u1", c5doc)]).2.2 = 0 ∧
    c5doc.plan = some "premium" ∧
    c5doc.premium.expiresAt = some 5 ∧ (0 : Int) < 5 ∧ (5 : Int) ≤ 100 := by
  refine ⟨by decide, by decide, rfl, rfl, by decide, by decide⟩

/-- Amended claim C5: for every store with unique document ids and
every page size of at least one — regardless of page-boundary
alignment — one complete sweep run rewrites every document to its
`sweepResultDoc` (downgrading exactly the documents some pass's filter
and guard accept), counts exactly the `downgradeable` documents as
downgrades, and leaves every non-`downgradeable` document unchanged. -/
theorem C5_sweep_characterization (now : Int) (ps : Nat)
    (users : List (String × UserDoc)) (hps : 1 ≤ ps)
    (hnd : (users.map Prod.fst).Nodup) :
    (expireSweepRun now ps users).1
      = users.map (fun p => (p.1, sweepResultDoc now p.2)) ∧
    (expireSweepRun now ps users).2.2
      = users.countP (fun p => downgradeable now p.2) ∧
    (∀ p ∈ users, downgradeable now p.2 = false → sweepResultDoc now p.2 = p.2) := by
  obtain ⟨h1, h2⟩ := expireSweepRun_spec now hps hnd
  exact ⟨h1, h2, fun p _ h => sweepResultDoc_eq_self h⟩

/-- An expired legacy premium account. -/
def c5wa : UserDoc := { plan := some "premium", premiumExpiry := some 40 }

/-- A still-live legacy premium account. -/
def c5wb : UserDoc := { plan := some "premium", premiumExpiry := some 900 }

/-- Witness for the amended C5 at a concrete two-account store with
page size one: the expired account is downgraded, the live one
untouched. -/
theorem C5_sweep_characterization_witness :
    1 ≤ 1 ∧
    (([("a", c5wa), ("b", c5wb)].map Prod.fst).Nodup) ∧
    (expireSweepRun 100 1 [("a", c5wa), ("b", c5wb)]).1
      = [("a", sweepResultDoc 100 c5wa), ("b", sweepResultDoc 100 c5wb)] ∧
    (expireSweepRun 100 1 [("a", c5wa), ("b", c5wb)]).2.2 = 1 := by
  have h := C5_sweep_characterization 100 1 [("a", c5wa), ("b", c5wb)]
    (by decide) (by decide)
  refine ⟨by decide, by decide, ?_, ?_⟩
  · rw [h.1]; rfl
  · rw [h.2.1]; decide

/-! ## Claim C6: the sweeper's frame -/

/-- An expired legacy premium account for the C6 counterexample. -/
def c6doc : UserDoc := { plan := some "premium", premiumExpiry := some 5 }

/-- Claim C6 as stated is false: when the sweep downgrades `c6doc`, it
does not only set `plan = "free"` — it also resets the stored legacy
expiry field `premiumExpiry` from `5` to `0` (and stamps
`lastDowngradedAt`), so not all expiry fields keep their values. -/
theorem C6_counterexample :
    ((expireSweepRun 100 300 [("u1", c6doc)]).1.map
      (fun p => (p.2.plan, p.2.premiumExpiry)))
      = [(some "free", some 0)] ∧
    c6doc.premiumExpiry = some 5 ∧ ¬ (some (0 : Int) = some (5 : Int)) := by
  refine ⟨by decide, rfl, by decide⟩

/-- Amended claim C6: a complete sweep run preserves the
`premium.expiresAt` and `premium.expiryTimeMillis` values of every
account, but on every account it downgrades it resets the legacy
top-level `premiumExpiry` to `0` (and sets `premium.active` to
`false`) in addition to the plan change. -/
theorem C6_sweep_frame (now : Int) (ps : Nat) (users : List (String × UserDoc))
    (hps : 1 ≤ ps) (hnd : (users.map Prod.fst).Nodup) :
    ((expireSweepRun now ps users).1.map
        (fun p => (p.1, p.2.premium.expiresAt, p.2.premium.expiryTimeMillis)))
      = users.map (fun p => (p.1, p.2.premium.expiresAt, p.2.premium.expiryTimeMillis)) ∧
    (∀ p ∈ users, downgradeable now p.2 = true →
      (p.1, sweepResultDoc now p.2) ∈ (expireSweepRun now ps users).1 ∧
      (sweepResultDoc now p.2).premiumExpiry = some 0 ∧
      (sweepResultDoc now p.2).premium.active = some false) := by
  obtain ⟨h1, -⟩ := expireSweepRun_spec now hps hnd
  constructor
  · rw [h1, List.map_map]
    refine List.map_congr_left (fun p _ => ?_)
    obtain ⟨e1, e2⟩ := sweepResultDoc_preserves now p.2
    simp [Function.comp, e1, e2]
  · intro p hp hdg
    obtain ⟨e1, e2⟩ := sweepResultDoc_downgraded hdg
    refine ⟨?_, e1, e2⟩
    rw [h1]
    exact List.mem_map_of_mem _ hp

/-- Witness for the amended C6 on a one-account store. -/
theorem C6_sweep_frame_witness :
    1 ≤ 300 ∧ (([("u1", c6doc)].map Prod.fst).Nodup) ∧
    ((expireSweepRun 100 300 [("u1", c6doc)]).1.map
        (fun p => (p.1, p.2.premium.expiresAt, p.2.premium.expiryTimeMillis)))
      = [("u1", c6doc)].map
          (fun p => (p.1, p.2.premium.expiresAt, p.2.premium.expiryTimeMillis)) ∧
    (sweepResultDoc 100 c6doc).premiumExpiry = some 0 := by
  have h := C6_sweep_frame 100 300 [("u1", c6doc)] (by decide) (by decide)
  refine ⟨by decide, by decide, h.1, ?_⟩
  exact (h.2 ("u1", c6doc) (by simp) (by decide)).2.1

/-! ## Claim C7: sweep idempotence -/

/-- Claim C7: a second complete run (same clock, no intervening
events) changes nothing and performs zero downgrades, and a document
downgraded by a `premium.*` field pass is excluded by the other
passes' filters (its update fails every query filter). -/
theorem C7_sweep_idempotent (now : Int) (ps : Nat) (users : List (String × UserDoc))
    (hps : 1 ≤ ps) (hnd : (users.map Prod.fst).Nodup) :
    (expireSweepRun now ps (expireSweepRun now ps users).1).1
      = (expireSweepRun now ps users).1 ∧
    (expireSweepRun now ps (expireSweepRun now ps users).1).2.2 = 0 ∧
    (∀ d : UserDoc,
      expireQueryMatch fieldExpiryTimeMillis now (sweepUpdate now d) = false ∧
      legacyQueryMatch now (sweepUpdate now d) = false ∧
      expireQueryMatch fieldExpiresAt now (legacyUpdate now d) = false) := by
  obtain ⟨h1, -⟩ := expireSweepRun_spec now hps hnd
  have hnd1 : (((expireSweepRun now ps users).1.map Prod.fst)).Nodup := by
    rw [h1, List.map_map]
    have hcong : users.map (Prod.fst ∘ fun p => (p.1, sweepResultDoc now p.2))
        = users.map Prod.fst :=
      List.map_congr_left (fun p _ => rfl)
    rw [hcong]; exact hnd
  obtain ⟨h1', h2'⟩ := expireSweepRun_spec now hps hnd1
  have hall : ∀ q ∈ (expireSweepRun now ps users).1, downgradeable now q.2 = false := by
    intro q hq
    rw [h1] at hq
    rcases List.mem_map.mp hq with ⟨p, -, rfl⟩
    exact downgradeable_sweepResultDoc now p.2
  refine ⟨?_, ?_, ?_⟩
  · rw [h1']
    conv_rhs => rw [← List.map_id ((expireSweepRun now ps users).1)]
    refine List.map_congr_left (fun q hq => ?_)
    rw [sweepResultDoc_eq_self (hall q hq)]
    rfl
  · rw [h2']
    rw [List.countP_eq_zero]
    intro q hq
    rw [hall q hq]
    simp
  · intro d
    exact ⟨expireQueryMatch_sweepUpdate _ now now d,
      legacyQueryMatch_sweepUpdate now now d,
      expireQueryMatch_legacyUpdate _ now now d⟩

/-- Witness for C7 on a concrete store. -/
theorem C7_sweep_idempotent_witness :
    1 ≤ 1 ∧ (([("a", c5wa), ("b", c5wb)].map Prod.fst).Nodup) ∧
    (expireSweepRun 100 1 (expireSweepRun 100 1 [("a", c5wa), ("b", c5wb)]).1).2.2 = 0 := by
  have h := C7_sweep_idempotent 100 1 [("a", c5wa), ("b", c5wb)] (by decide) (by decide)
  exact ⟨by decide, by decide, h.2.1⟩

/-! ## Claim C10: the downgrade guard -/

/-- A premium account whose coalesced best-known expiry
(`premium.expiryTimeMillis`) lies in the future but whose legacy
`premiumExpiry` is positive and expired. -/
def c10doc : UserDoc :=
  { plan := some "premium", premiumExpiry := some 5, premium := { active := some false, expiryTimeMillis := some 1000000 } }

/-- Claim C10 as stated is false: the legacy pass guards only on the
legacy `premiumExpiry` value, not on the coalesced maximum.  `c10doc`
has coalesced expiry `1000000 > now = 100`, yet a complete run
downgrades it to `free`. -/
theorem C10_counterexample :
    ((expireSweepRun 100 300 [("u1", c10doc)]).1.map (fun p => p.2.plan))
      = [some "free"] ∧
    (expireSweepRun 100 300 [("u1", c10doc)]).2.2 = 1 ∧
    coalescedExpiry c10doc = 1000000 ∧ ¬ ((1000000 : Int) ≤ 100) := by
  refine ⟨by decide, by decide, by decide, by decide⟩

/-- Amended claim C10: a complete run touches a document only when
either the coalesced expiry is positive and at most `now` (the
`premium.*` passes) or the legacy `premiumExpiry` alone is positive
and at most `now` (the legacy pass); a document whose expiry values
are all absent, zero or negative (coalesced expiry `≤ 0`) is never
downgraded, even when a range query returns it. -/
theorem C10_downgrade_guard (now : Int) (ps : Nat) (users : List (String × UserDoc))
    (hps : 1 ≤ ps) (hnd : (users.map Prod.fst).Nodup) :
    List.Forall₂ (fun q r =>
        (r ≠ q →
          (0 < coalescedExpiry q.2 ∧ coalescedExpiry q.2 ≤ now) ∨
          (0 < toMillis q.2.premiumExpiry ∧ toMillis q.2.premiumExpiry ≤ now)) ∧
        (coalescedExpiry q.2 ≤ 0 → r = q))
      users (expireSweepRun now ps users).1 := by
  obtain ⟨h1, -⟩ := expireSweepRun_spec now hps hnd
  rw [h1, List.forall₂_map_right_iff]
  rw [List.forall₂_same]
  intro p _
  obtain ⟨hg, hz⟩ := sweepResultDoc_guard now p.2
  constructor
  · intro hne
    refine hg (fun he => hne ?_)
    rw [he]
  · intro hle
    rw [hz hle]

/-- Witness for the amended C10 on a concrete store. -/
theorem C10_downgrade_guard_witness :
    1 ≤ 300 ∧ (([("u1", c6doc)].map Prod.fst).Nodup) ∧
    List.Forall₂ (fun q r =>
        (r ≠ q →
          (0 < coalescedExpiry q.2 ∧ coalescedExpiry q.2 ≤ 100) ∨
          (0 < toMillis q.2.premiumExpiry ∧ toMillis q.2.premiumExpiry ≤ 100)) ∧
        (coalescedExpiry q.2 ≤ 0 → r = q))
      [("u1", c6doc)] (expireSweepRun 100 300 [("u1", c6doc)]).1 := by
  exact ⟨by decide, by decide,
    C10_downgrade_guard 100 300 [("u1", c6doc)] (by decide) (by decide)⟩

/-! ## Claim C4: extension-day extraction -/

/-- Claim C4 as stated is false on the client-confirm extraction: a
provided day count of `0` is clamped by `Math.max(1, 0)` to `1`, while
the claimed rule treats a value `≤ 0` as absent and falls through to
the default of `30`. -/
theorem C4_counterexample :
    confirmExtendDays (some 0) none = 1 ∧
    specExtensionDays (some 0) none = 30 ∧ (1 : Int) ≠ 30 := by
  refine ⟨rfl, rfl, by decide⟩

/-- Amended claim C4: the claimed rule (explicit days, else months×30,
else 30) holds for both the confirm extraction and the legacy-webhook
extraction whenever all provided values are positive; for a
non-positive provided day count the confirm handler clamps to `1`
(not 30), while the legacy webhook yields `30` for a negative day
count (a zero day count is falsy in JS and falls through to the months
alternative).  The current webhook performs no extraction at all and
always uses 30 (`runWebhook`). -/
theorem C4_extraction_amended :
    (∀ days months : Option Int, (∀ d ∈ days, 0 < d) → (∀ mo ∈ months, 0 < mo) →
      confirmExtendDays days months = specExtensionDays days months ∧
      part000ExtendDays days months = specExtensionDays days months) ∧
    (∀ (months : Option Int) (d : Int), d ≤ 0 → confirmExtendDays (some d) months = 1) ∧
    (∀ (months : Option Int) (d : Int), d < 0 → part000ExtendDays (some d) months = 30) := by
  refine ⟨?_, ?_, ?_⟩
  · intro days months hd hm
    cases days with
    | some d =>
      have hd0 : 0 < d := hd d rfl
      constructor
      · show max 1 d = specExtensionDays (some d) months
        rw [max_eq_right (by omega : (1 : Int) ≤ d)]
        show d = if 0 < d then d else 30
        rw [if_pos hd0]
      · show part000ExtendDays (some d) months = specExtensionDays (some d) months
        unfold part000ExtendDays specExtensionDays
        dsimp only
        rw [if_pos (show d ≠ 0 by omega), if_pos hd0]
    | none =>
      cases months with
      | some mo =>
        have hm0 : 0 < mo := hm mo rfl
        have h30 : (0 : Int) < mo * 30 := by positivity
        constructor
        · show max 1 (mo * 30) = specExtensionDays none (some mo)
          rw [max_eq_right (by omega : (1 : Int) ≤ mo * 30)]
          show mo * 30 = if 0 < mo * 30 then mo * 30 else 30
          rw [if_pos h30]
        · show part000ExtendDays none (some mo) = specExtensionDays none (some mo)
          unfold part000ExtendDays specExtensionDays
          dsimp only
      | none => exact ⟨rfl, rfl⟩
  · intro months d hd
    show max 1 d = 1
    rw [max_eq_left (by omega : d ≤ (1 : Int))]
  · intro months d hd
    unfold part000ExtendDays
    dsimp only
    rw [if_pos (show d ≠ 0 by omega), if_neg (show ¬ (0 : Int) < d by omega)]

/-- Witness for the amended C4 at concrete inputs. -/
theorem C4_extraction_amended_witness :
    (∀ d ∈ (some 7 : Option Int), 0 < d) ∧ (∀ mo ∈ (some 2 : Option Int), 0 < mo) ∧
    confirmExtendDays (some 7) (some 2) = specExtensionDays (some 7) (some 2) ∧
    part000ExtendDays (some 7) (some 2) = specExtensionDays (some 7) (some 2) ∧
    (-3 : Int) ≤ 0 ∧ confirmExtendDays (some (-3)) none = 1 ∧
    (-3 : Int) < 0 ∧ part000ExtendDays (some (-3)) none = 30 := by
  have h := C4_extraction_amended
  have h1 := h.1 (some 7) (some 2) (by decide) (by decide)
  refine ⟨by decide, by decide, h1.1, h1.2, by decide, ?_, by decide, ?_⟩
  · exact h.2.1 none (-3) (by decide)
  · exact h.2.2 none (-3) (by decide)

/-! ## Claim C1: the extension policy -/

theorem if_gt_eq_max (a b : Int) : (if a > b then a else b) = max a b := by
  rcases le_or_lt a b with h | h
  · rw [if_neg (not_lt.mpr h), max_eq_right h]
  · rw [if_pos h, max_eq_left h.le]

/-- The event and store used in the C1 counterexample: a user whose
entitlement still has future time (`premiumExpiry = 5000` with
`now = 1000`) receives a successful charge webhook. -/
def c1ev : PsWebhookEvent :=
  { eventType := "charge.success", metadataUid := some "u1", reference := some "r1" }

/-- The C1 counterexample store. -/
def c1db : DB := { users := [("u1", { premiumExpiry := some 5000 })] }

/-- Claim C1 as stated is false: the webhook handler overwrites the
expiry with `now + 30 days` (`webhook.js` lines 61-63, "Overwrite
policy: from NOW"), discarding the remaining time, instead of the
claimed `max(currentExpiresAt, now) + d·86400000`, which here would be
`5000 + 2592000000`. -/
theorem C1_counterexample :
    ((lookupDoc (applyTxns c1db (runWebhook c1db c1ev (some "sig") "sig" 1000).2).users
        "u1").bind UserDoc.premiumExpiry) = some 2592001000 ∧
    max 5000 1000 + 30 * 24 * 60 * 60 * 1000 = (2592005000 : Int) ∧
    (2592001000 : Int) ≠ 2592005000 := by
  refine ⟨by decide, by decide, by decide⟩

/-- Amended claim C1: the client-confirm handler (first conjunct) and
the legacy webhook `part_000` (third conjunct) compute the new expiry
by extend-from-max, `max(currentExpiry, now) + extendDays·86400000`;
the current webhook handler (second conjunct) instead overwrites with
`now + 30·86400000`, discarding any remaining time. -/
theorem C1_extension_policy_amended :
    (∀ (db : DB) (req : ConfirmReq) (verify : VerifyResult) (now : Int),
      req.uid ≠ "" → req.reference ≠ "" → verify.status = true →
      verify.dataStatus = some "success" →
      ((lookupDoc (applyTxns db (runConfirm db req verify now).2).users req.uid).bind
          UserDoc.premiumExpiry)
        = some (max (currentExpiryMs db req.uid) now
            + confirmExtendDays req.days req.months * 24 * 60 * 60 * 1000)) ∧
    (∀ (db : DB) (ev : PsWebhookEvent) (hsig : Option String) (csig : String) (now : Int),
      sigOk hsig csig = true → successEvents.contains ev.eventType = true →
      webhookUid ev ≠ "" → webhookReference ev ≠ "" →
      isProcessed db (webhookReference ev) = false →
      ((lookupDoc (applyTxns db (runWebhook db ev hsig csig now).2).users
          (webhookUid ev)).bind UserDoc.premiumExpiry)
        = some (now + 30 * 24 * 60 * 60 * 1000)) ∧
    (∀ (db : DB) (ev : PsWebhookEvent) (hsig : Option String) (csig : String) (now : Int)
        (uid : String),
      sigOk hsig csig = true → isSuccess0 ev = true → webhookReference ev ≠ "" →
      isProcessed db (webhookReference ev) = false → resolveUid0 db ev = some uid →
      ((lookupDoc (applyTxns db (runWebhook0 db ev hsig csig now).2).users uid).bind
          UserDoc.premiumExpiry)
        = some (max (((readUser db uid).bind UserDoc.premiumExpiry).getD 0) now
            + part000ExtendDays ev.metadataDays ev.metadataMonths * 24 * 60 * 60 * 1000)) := by
  refine ⟨?_, ?_, ?_⟩
  · intro db req verify now hu hr hs hds
    rw [runConfirm, if_neg (by push_neg; exact ⟨hu, hr⟩),
      if_neg (not_not_intro ⟨hs, hds⟩)]
    show ((lookupDoc (applyTxns db
        [[WriteOp.confirmLedger req.reference req.uid verify.amount
            (verify.currency.getD "ZAR")
            (verify.customerEmail.orElse (fun _ => (readUser db req.uid).bind UserDoc.email))
            now],
         [WriteOp.confirmUser req.uid
            (orElseStr ((readUser db req.uid).bind UserDoc.email) verify.customerEmail)
            (intOr ((readUser db req.uid).bind UserDoc.premiumSince) now)
            ((if currentExpiryMs db req.uid > now then currentExpiryMs db req.uid else now)
              + confirmExtendDays req.days req.months * 24 * 60 * 60 * 1000)
            req.reference verify.amount (verify.currency.getD "ZAR") now]]).users
        req.uid).bind UserDoc.premiumExpiry) = _
    rw [applyTxns]
    simp only [List.foldl_cons, List.foldl_nil, applyTxn, applyOp]
    rw [lookupDoc_upsertDoc_self]
    rw [Option.some_bind]
    rw [if_gt_eq_max]
  · intro db ev hsig csig now hsg hevt hu hr hp
    rw [runWebhook, if_neg (by rw [hsg]; simp),
      if_neg (by rw [hevt]; simp),
      if_neg (by push_neg; exact ⟨hu, hr⟩),
      if_neg (bool_neg_of_eq_false hp)]
    show ((lookupDoc (applyTxns db
        [[WriteOp.webhookUser (webhookUid ev)
            (intOr ((readUser db (webhookUid ev)).bind UserDoc.premiumSince) now)
            (now + 30 * 24 * 60 * 60 * 1000) (webhookReference ev) ev.amount
            (ev.currency.getD "ZAR")
            (orElseStr ((readUser db (webhookUid ev)).bind UserDoc.email) ev.customerEmail)
            now,
          WriteOp.webhookLedger (webhookReference ev) (webhookUid ev) ev.amount
            (ev.currency.getD "ZAR")
            (ev.customerEmail.orElse (fun _ => (readUser db (webhookUid ev)).bind UserDoc.email))
            ev.eventType now]]).users (webhookUid ev)).bind UserDoc.premiumExpiry) = _
    rw [applyTxns]
    simp only [List.foldl_cons, List.foldl_nil, applyTxn, applyOp]
    rw [lookupDoc_upsertDoc_self]
    rw [Option.some_bind]
  · intro db ev hsig csig now uid hsg hsucc href hp hres
    have hd : (runWebhook0 db ev hsig csig now).2
        = [[WriteOp.traceAdd],
           [WriteOp.p0Ledger (webhookReference ev) uid ev.eventType
              (strOr ev.dataStatus "success") ev.amount (ev.currency.getD "ZAR")
              ev.customerEmail now],
           [WriteOp.p0User uid
              (orElseStr ((readUser db uid).bind UserDoc.email) ev.customerEmail)
              (intOr ((readUser db uid).bind UserDoc.premiumSince) now)
              ((if ((readUser db uid).bind UserDoc.premiumExpiry).getD 0 > now
                  then ((readUser db uid).bind UserDoc.premiumExpiry).getD 0 else now)
                + part000ExtendDays ev.metadataDays ev.metadataMonths * 24 * 60 * 60 * 1000)
              (webhookReference ev) ev.amount (ev.currency.getD "ZAR") now]] := by
      simp [runWebhook0, hsg, hsucc, href, hp, hres]
    rw [hd]
    simp only [applyTxns, applyTxn, List.foldl_cons, List.foldl_nil, applyOp]
    rw [lookupDoc_upsertDoc_self, Option.some_bind]
    rw [if_gt_eq_max]

/-- Witness for the amended C1 at concrete inputs: a lapsed account
confirmed via the client path restarts from `now`, the webhook path
overwrites from `now`, and the legacy webhook stacks 30 days on the
stored expiry `5000`. -/
theorem C1_extension_policy_witness :
    ((lookupDoc (applyTxns c1db
        (runConfirm c1db { uid := "u1", reference := "r1" }
          { status := true, dataStatus := some "success" } 1000).2).users "u1").bind
        UserDoc.premiumExpiry)
      = some (max (currentExpiryMs c1db "u1") 1000 + 30 * 24 * 60 * 60 * 1000) ∧
    ((lookupDoc (applyTxns c1db (runWebhook c1db c1ev (some "sig") "sig" 1000).2).users
        "u1").bind UserDoc.premiumExpiry) = some (1000 + 30 * 24 * 60 * 60 * 1000) ∧
    ((lookupDoc (applyTxns c1db (runWebhook0 c1db c1ev (some "sig") "sig" 1000).2).users
        "u1").bind UserDoc.premiumExpiry)
      = some (max (((readUser c1db "u1").bind UserDoc.premiumExpiry).getD 0) 1000
          + part000ExtendDays c1ev.metadataDays c1ev.metadataMonths * 24 * 60 * 60 * 1000) := by
  have h := C1_extension_policy_amended
  refine ⟨h.1 c1db { uid := "u1", reference := "r1" }
    { status := true, dataStatus := some "success" } 1000
    (by decide) (by decide) rfl rfl, ?_, ?_⟩
  · exact h.2.1 c1db c1ev (some "sig") "sig" 1000 (by decide) (by decide)
      (by decide) (by decide) (by decide)
  · exact h.2.2 c1db c1ev (some "sig") "sig" 1000 "u1" (by decide) (by decide)
      (by decide) (by decide) (by decide)

/-! ## Claim C2: idempotency by payment reference -/

theorem count_key_upsertDoc {δ : Type} (l : List (String × δ)) (k : String)
    (fn : Option δ → δ) (hnd : (l.map Prod.fst).Nodup) :
    ((upsertDoc l k fn).map Prod.fst).count k = 1 := by
  induction l with
  | nil => simp [upsertDoc]
  | cons p t ih =>
    by_cases hk : p.1 = k
    · have hk' : (p.1 == k) = true := by simp [hk]
      have hnotmem : k ∉ t.map Prod.fst := by
        rw [← hk]
        exact (List.nodup_cons.mp (by simpa using hnd)).1
      simp [upsertDoc, hk', List.count_cons, List.count_eq_zero_of_not_mem hnotmem]
    · have hk' : (p.1 == k) = false := by simp [hk]
      have ih' := ih (by simpa using (by simpa using hnd : (p.1 :: t.map Prod.fst).Nodup).of_cons)
      simp [upsertDoc, hk', List.count_cons, Ne.symm hk, ih']

/-- Request and oracle answer used in the C2 counterexample. -/
def c2req : ConfirmReq := { uid := "u1", reference := "r1" }

/-- Oracle answer used in the C2 counterexample. -/
def c2verify : VerifyResult := { status := true, dataStatus := some "success" }

/-- Claim C2 as stated is false for the client-confirm handler
(`confirm.js`, one of the claim's cited sources): it has no
idempotency guard, so re-sending the same `(reference, payload)`
mutates the entitlement a second time (`5000 + ...`, stacking another
30 days on top of the first run's expiry), and the response carries no
`alreadyProcessed` flag. -/
theorem C2_counterexample :
    ((lookupDoc (applyTxns {} (runConfirm {} c2req c2verify 0).2).users "u1").bind
        UserDoc.premiumExpiry = some 2592000000) ∧
    ((lookupDoc (applyTxns (applyTxns {} (runConfirm {} c2req c2verify 0).2)
          (runConfirm (applyTxns {} (runConfirm {} c2req c2verify 0).2) c2req c2verify 0).2).users
        "u1").bind UserDoc.premiumExpiry = some 5184000000) ∧
    (runConfirm (applyTxns {} (runConfirm {} c2req c2verify 0).2) c2req c2verify 0).1.status
      = 200 := by
  refine ⟨by decide, by decide, by decide⟩

/-- Amended claim C2: the transactional handlers (`webhook.js`, here;
`part_001` analogously) are idempotent by reference: after one
successful application there is exactly one ledger entry for the
reference, marked `processed`, the entitlement expiry is set, and a
second application of the same payload reports `alreadyProcessed`,
issues no write, and leaves the store unchanged.  The non-transactional
`confirm.js` path does not satisfy this (see the counterexample). -/
theorem C2_webhook_idempotent_amended :
    ∀ (db : DB) (ev : PsWebhookEvent) (hsig : Option String) (csig : String) (now now2 : Int),
      (db.payments.map Prod.fst).Nodup →
      sigOk hsig csig = true →
      successEvents.contains ev.eventType = true →
      webhookUid ev ≠ "" → webhookReference ev ≠ "" →
      isProcessed db (webhookReference ev) = false →
      (((applyTxns db (runWebhook db ev hsig csig now).2).payments.map Prod.fst).count
          (webhookReference ev) = 1 ∧
       isProcessed (applyTxns db (runWebhook db ev hsig csig now).2)
          (webhookReference ev) = true ∧
       ((lookupDoc (applyTxns db (runWebhook db ev hsig csig now).2).users
            (webhookUid ev)).bind UserDoc.premiumExpiry
          = some (now + 30 * 24 * 60 * 60 * 1000)) ∧
       (runWebhook (applyTxns db (runWebhook db ev hsig csig now).2) ev hsig csig
            now2).1.alreadyProcessed = true ∧
       (runWebhook (applyTxns db (runWebhook db ev hsig csig now).2) ev hsig csig now2).2
          = [] ∧
       applyTxns (applyTxns db (runWebhook db ev hsig csig now).2)
          (runWebhook (applyTxns db (runWebhook db ev hsig csig now).2) ev hsig csig now2).2
          = applyTxns db (runWebhook db ev hsig csig now).2) := by
  intro db ev hsig csig now now2 hnd hsg hevt hu hr hp
  have h2 : (runWebhook db ev hsig csig now).2 =
      [[WriteOp.webhookUser (webhookUid ev)
          (intOr ((readUser db (webhookUid ev)).bind UserDoc.premiumSince) now)
          (now + 30 * 24 * 60 * 60 * 1000) (webhookReference ev) ev.amount
          (ev.currency.getD "ZAR")
          (orElseStr ((readUser db (webhookUid ev)).bind UserDoc.email) ev.customerEmail)
          now,
        WriteOp.webhookLedger (webhookReference ev) (webhookUid ev) ev.amount
          (ev.currency.getD "ZAR")
          (ev.customerEmail.orElse (fun _ => (readUser db (webhookUid ev)).bind UserDoc.email))
          ev.eventType now]] := by
    rw [runWebhook, if_neg (by rw [hsg]; simp), if_neg (by rw [hevt]; simp),
      if_neg (by push_neg; exact ⟨hu, hr⟩), if_neg (bool_neg_of_eq_false hp)]
  have hc1 : ((applyTxns db (runWebhook db ev hsig csig now).2).payments.map Prod.fst).count
      (webhookReference ev) = 1 := by
    rw [h2]
    exact count_key_upsertDoc db.payments (webhookReference ev) _ hnd
  have hc2 : isProcessed (applyTxns db (runWebhook db ev hsig csig now).2)
      (webhookReference ev) = true := by
    rw [h2]
    simp only [applyTxns, applyTxn, List.foldl_cons, List.foldl_nil, applyOp, isProcessed]
    rw [lookupDoc_upsertDoc_self]
    rfl
  have hc3 : ((lookupDoc (applyTxns db (runWebhook db ev hsig csig now).2).users
      (webhookUid ev)).bind UserDoc.premiumExpiry)
      = some (now + 30 * 24 * 60 * 60 * 1000) := by
    rw [h2]
    simp only [applyTxns, applyTxn, List.foldl_cons, List.foldl_nil, applyOp]
    rw [lookupDoc_upsertDoc_self, Option.some_bind]
  have hc4 : runWebhook (applyTxns db (runWebhook db ev hsig csig now).2) ev hsig csig now2
      = ({ status := 200, ok := true, uid := some (webhookUid ev),
            reference := some (webhookReference ev), newExpiryMs := some 0,
            alreadyProcessed := true }, []) := by
    rw [runWebhook, if_neg (by rw [hsg]; simp), if_neg (by rw [hevt]; simp),
      if_neg (by push_neg; exact ⟨hu, hr⟩), if_pos hc2]
  refine ⟨hc1, hc2, hc3, ?_, ?_, ?_⟩
  · rw [hc4]
  · rw [hc4]
  · rw [hc4]
    rfl

/-- The event used in the C2 witness. -/
def c2ev : PsWebhookEvent :=
  { eventType := "charge.success", metadataUid := some "u1", reference := some "r1" }

/-- Witness for the amended C2 at a concrete input: one application on
an empty store, then a replay of the same payload five milliseconds
later. -/
theorem C2_webhook_idempotent_witness :
    (((applyTxns {} (runWebhook {} c2ev (some "s") "s" 0).2).payments.map Prod.fst).count
        (webhookReference c2ev) = 1 ∧
     isProcessed (applyTxns {} (runWebhook {} c2ev (some "s") "s" 0).2)
        (webhookReference c2ev) = true ∧
     ((lookupDoc (applyTxns {} (runWebhook {} c2ev (some "s") "s" 0).2).users
          (webhookUid c2ev)).bind UserDoc.premiumExpiry
        = some (0 + 30 * 24 * 60 * 60 * 1000)) ∧
     (runWebhook (applyTxns {} (runWebhook {} c2ev (some "s") "s" 0).2) c2ev (some "s") "s"
          5).1.alreadyProcessed = true ∧
     (runWebhook (applyTxns {} (runWebhook {} c2ev (some "s") "s" 0).2) c2ev (some "s") "s" 5).2
        = [] ∧
     applyTxns (applyTxns {} (runWebhook {} c2ev (some "s") "s" 0).2)
        (runWebhook (applyTxns {} (runWebhook {} c2ev (some "s") "s" 0).2) c2ev (some "s") "s" 5).2
        = applyTxns {} (runWebhook {} c2ev (some "s") "s" 0).2) :=
  C2_webhook_idempotent_amended {} c2ev (some "s") "s" 0 5 (by decide) (by decide) (by decide)
    (by decide) (by decide) (by decide)

/-! ## Claim C3: atomicity of the processed mark and the entitlement write -/

/-- Request used in the C3 counterexample. -/
def c3req : ConfirmReq := { uid := "u1", reference := "r1" }

/-- Oracle answer used in the C3 counterexample. -/
def c3verify : VerifyResult := { status := true, dataStatus := some "success" }

/-- Claim C3 as stated is false for the client-confirm handler
(`confirm.js`, one of the claim's cited sources): it writes the
`processed: true` ledger entry and the user update as two separate
`set` calls with no transaction (lines 52-81), so the state after the
first write — ledger marked processed while the user document does not
even exist — is reachable; a failure between the writes would leave it. -/
theorem C3_counterexample :
    ((dbStates {} (runConfirm {} c3req c3verify 0).2).get? 1).map
      (fun s => (isProcessed s "r1", (lookupDoc s.users "u1").isSome)) = some (true, false) := by
  decide

/-- Amended claim C3: the webhook handler (`webhook.js` lines 54-102)
is atomic — in every reachable store state, if the reference's ledger
entry has become `processed` then the entitlement update of the same
transaction is already visible.  The client-confirm handler is not
atomic (see the counterexample). -/
theorem C3_webhook_atomic_amended :
    ∀ (db : DB) (ev : PsWebhookEvent) (hsig : Option String) (csig : String) (now : Int),
      isProcessed db (webhookReference ev) = false →
      ∀ s ∈ dbStates db (runWebhook db ev hsig csig now).2,
        isProcessed s (webhookReference ev) = true →
        ((lookupDoc s.users (webhookUid ev)).bind UserDoc.premiumExpiry
          = some (now + 30 * 24 * 60 * 60 * 1000)) := by
  intro db ev hsig csig now hp s hs hps
  by_cases h1 : sigOk hsig csig = false
  · rw [runWebhook, if_pos h1] at hs
    simp only [dbStates, List.scanl, List.mem_singleton] at hs
    rw [hs, hp] at hps
    exact absurd hps (by decide)
  · by_cases h2 : (successEvents.contains ev.eventType) = false
    · rw [runWebhook, if_neg h1, if_pos h2] at hs
      simp only [dbStates, List.scanl, List.mem_singleton] at hs
      rw [hs, hp] at hps
      exact absurd hps (by decide)
    · by_cases h3 : webhookUid ev = "" ∨ webhookReference ev = ""
      · rw [runWebhook, if_neg h1, if_neg h2, if_pos h3] at hs
        simp only [dbStates, List.scanl, List.mem_singleton] at hs
        rw [hs, hp] at hps
        exact absurd hps (by decide)
      · rw [runWebhook, if_neg h1, if_neg h2, if_neg h3,
          if_neg (bool_neg_of_eq_false hp)] at hs
        simp only [dbStates, List.scanl, List.mem_singleton, List.mem_cons,
          List.not_mem_nil, or_false] at hs
        rcases hs with hs | hs
        · rw [hs, hp] at hps
          exact absurd hps (by decide)
        · rw [hs]
          simp only [applyTxn, List.foldl_cons, List.foldl_nil, applyOp]
          rw [lookupDoc_upsertDoc_self, Option.some_bind]

/-- The event used in the C3 witness. -/
def c3ev : PsWebhookEvent :=
  { eventType := "charge.success", metadataUid := some "u1", reference := some "r1" }

/-- Witness for the amended C3 at a concrete input: the final state of
a successful webhook run is reachable, marks the reference processed,
and already carries the entitlement update. -/
theorem C3_webhook_atomic_witness :
    isProcessed ({} : DB) (webhookReference c3ev) = false ∧
    (applyTxns {} (runWebhook {} c3ev (some "s") "s" 7).2)
      ∈ dbStates {} (runWebhook {} c3ev (some "s") "s" 7).2 ∧
    isProcessed (applyTxns {} (runWebhook {} c3ev (some "s") "s" 7).2)
      (webhookReference c3ev) = true ∧
    ((lookupDoc (applyTxns {} (runWebhook {} c3ev (some "s") "s" 7).2).users
        (webhookUid c3ev)).bind UserDoc.premiumExpiry
      = some (7 + 30 * 24 * 60 * 60 * 1000)) :=
  ⟨by decide, by decide, by decide,
   C3_webhook_atomic_amended {} c3ev (some "s") "s" 7 (by decide) _ (by decide) (by decide)⟩

/-! ## Claim C8: rejection on external verification failure -/

/-- Request used in the C8 counterexample. -/
def c8req : PlayReq := { uid := "u1", packageName := "pkg", purchaseToken := "tok" }

/-- Billing-service answer used in the C8 counterexample: the lookup
succeeds but the subscription is long expired (expiry 5 with now 100). -/
def c8sub : PlaySubResult := { ok := true, expiryTime := some 5 }

/-- Claim C8 as stated is false for the Play handler
(`verify-subscription.js`, one of the claim's cited sources): when the
billing service reports an expired, non-entitling subscription, the
handler still writes the entitlement map (with `active: false`) and
answers `200 {ok: true}` — a state mutation and no client-visible
error.  (The older variant `part_005` instead rejects with 402 and no
write.) -/
theorem C8_counterexample :
    (runPlayVerify {} c8req c8sub 100).1.status = 200 ∧
    (runPlayVerify {} c8req c8sub 100).1.ok = true ∧
    ((lookupDoc (applyTxns {} (runPlayVerify {} c8req c8sub 100).2).users "u1").map
        (fun u => u.premium.active)) = some (some false) := by
  refine ⟨by decide, by decide, by decide⟩

/-- Amended claim C8: when the payment gateway's verify call reports
non-success, `confirm.js` answers 400 and writes nothing; when the
billing-service subscription lookup throws, `verify-subscription.js`
answers 500 and writes nothing; but when the lookup succeeds and
merely reports a non-entitling (expired) subscription, the Play
handler performs a write (setting `active: false`) and answers
`200 {ok: true}` rather than rejecting. -/
theorem C8_verification_failure_amended :
    (∀ (db : DB) (req : ConfirmReq) (verify : VerifyResult) (now : Int),
      ¬(verify.status = true ∧ verify.dataStatus = some "success") →
      (runConfirm db req verify now).2 = [] ∧
        (runConfirm db req verify now).1.status = 400) ∧
    (∀ (db : DB) (req : PlayReq) (sub : PlaySubResult) (now : Int),
      req.testMode = false → req.platform = "android" → req.uid ≠ "" →
      req.packageName ≠ "" → req.purchaseToken ≠ "" → sub.ok = false →
      (runPlayVerify db req sub now).2 = [] ∧
        (runPlayVerify db req sub now).1.status = 500) ∧
    (∀ (db : DB) (req : PlayReq) (sub : PlaySubResult) (now : Int),
      req.testMode = false → req.platform = "android" → req.uid ≠ "" →
      req.packageName ≠ "" → req.purchaseToken ≠ "" → sub.ok = true →
      sub.expiryTime.getD 0 ≤ now →
      (runPlayVerify db req sub now).1.status = 200 ∧
        (runPlayVerify db req sub now).1.ok = true ∧
        (runPlayVerify db req sub now).2
          = [[WriteOp.playUser req.uid false (sub.expiryTime.getD 0) req.productId now]]) := by
  refine ⟨?_, ?_, ?_⟩
  · intro db req verify now hv
    by_cases hid : req.uid = "" ∨ req.reference = ""
    · rw [runConfirm, if_pos hid]
      exact ⟨rfl, rfl⟩
    · rw [runConfirm, if_neg hid, if_pos hv]
      exact ⟨rfl, rfl⟩
  · intro db req sub now htm hplat hu hpk hpt hok
    rw [runPlayVerify, if_neg (bool_neg_of_eq_false htm), if_neg (not_not_intro hplat),
      if_neg hu, if_neg hpk, if_neg hpt, if_pos hok]
    exact ⟨rfl, rfl⟩
  · intro db req sub now htm hplat hu hpk hpt hok hexp
    rw [runPlayVerify, if_neg (bool_neg_of_eq_false htm), if_neg (not_not_intro hplat),
      if_neg hu, if_neg hpk, if_neg hpt, if_neg (by rw [hok]; simp)]
    have hact : decide (sub.expiryTime.getD 0 > now) = false :=
      decide_eq_false (not_lt.mpr hexp)
    refine ⟨rfl, rfl, ?_⟩
    show [[WriteOp.playUser req.uid (decide (sub.expiryTime.getD 0 > now))
        (sub.expiryTime.getD 0) req.productId now]] = _
    rw [hact]

/-- Witness for the amended C8 at concrete inputs: a failed gateway
verify, a throwing billing lookup, and an expired subscription. -/
theorem C8_verification_failure_witness :
    ((runConfirm {} c3req { status := false } 0).2 = [] ∧
      (runConfirm {} c3req { status := false } 0).1.status = 400) ∧
    ((runPlayVerify {} c8req { ok := false } 100).2 = [] ∧
      (runPlayVerify {} c8req { ok := false } 100).1.status = 500) ∧
    ((runPlayVerify {} c8req c8sub 100).1.status = 200 ∧
      (runPlayVerify {} c8req c8sub 100).1.ok = true ∧
      (runPlayVerify {} c8req c8sub 100).2
        = [[WriteOp.playUser c8req.uid false (c8sub.expiryTime.getD 0) c8req.productId 100]]) := by
  have h := C8_verification_failure_amended
  exact ⟨h.1 {} c3req { status := false } 0 (by decide),
    h.2.1 {} c8req { ok := false } 100 (by decide) (by decide) (by decide) (by decide)
      (by decide) (by decide),
    h.2.2 {} c8req c8sub 100 (by decide) (by decide) (by decide) (by decide) (by decide)
      (by decide) (by decide)⟩

/-! ## Claim C9: bad-signature requests -/

/-- Event used in the C9 counterexample. -/
def c9ev : PsWebhookEvent := { eventType := "charge.success", reference := some "r1" }

/-- Claim C9 as stated is false for the legacy webhook (`part_000`, one
of the claim's cited sources): it adds a `webhook_traces` record
(lines 35-42) before the signature check, so a request with a missing
signature still writes to the store (here the trace count goes from 0
to 1), even though it is acknowledged with 200. -/
theorem C9_counterexample :
    (applyTxns {} (runWebhook0 {} c9ev none "sig" 0).2).traces = 1 ∧
    ({} : DB).traces = 0 ∧
    (runWebhook0 {} c9ev none "sig" 0).1.status = 200 := by
  refine ⟨by decide, by decide, by decide⟩

/-- Amended claim C9: on a bad or missing signature, the current
webhook handler (`webhook.js`) writes nothing and acknowledges with
200; the legacy handler (`part_000`) also acknowledges with 200 and
leaves users and payments untouched, but has already written one
`webhook_traces` record before the check. -/
theorem C9_bad_signature_amended :
    (∀ (db : DB) (ev : PsWebhookEvent) (hsig : Option String) (csig : String) (now : Int),
      sigOk hsig csig = false →
      (runWebhook db ev hsig csig now).2 = [] ∧
        applyTxns db (runWebhook db ev hsig csig now).2 = db ∧
        (runWebhook db ev hsig csig now).1.status = 200 ∧
        (runWebhook db ev hsig csig now).1.ok = false) ∧
    (∀ (db : DB) (ev : PsWebhookEvent) (hsig : Option String) (csig : String) (now : Int),
      sigOk hsig csig = false →
      (runWebhook0 db ev hsig csig now).2 = [[WriteOp.traceAdd]] ∧
        (applyTxns db (runWebhook0 db ev hsig csig now).2).traces = db.traces + 1 ∧
        (applyTxns db (runWebhook0 db ev hsig csig now).2).users = db.users ∧
        (applyTxns db (runWebhook0 db ev hsig csig now).2).payments = db.payments ∧
        (runWebhook0 db ev hsig csig now).1.status = 200) := by
  constructor
  · intro db ev hsig csig now h
    rw [runWebhook, if_pos h]
    exact ⟨rfl, rfl, rfl, rfl⟩
  · intro db ev hsig csig now h
    have hd : runWebhook0 db ev hsig csig now
        = ({ status := 200, reason := some "bad-signature" }, [[WriteOp.traceAdd]]) := by
      simp [runWebhook0, h]
    rw [hd]
    exact ⟨rfl, rfl, rfl, rfl, rfl⟩

/-- Witness for the amended C9 at a concrete input: a request with no
signature header against both webhook handlers. -/
theorem C9_bad_signature_witness :
    ((runWebhook {} c9ev none "sig" 3).2 = [] ∧
      applyTxns {} (runWebhook {} c9ev none "sig" 3).2 = {} ∧
      (runWebhook {} c9ev none "sig" 3).1.status = 200 ∧
      (runWebhook {} c9ev none "sig" 3).1.ok = false) ∧
    ((runWebhook0 {} c9ev none "sig" 3).2 = [[WriteOp.traceAdd]] ∧
      (applyTxns {} (runWebhook0 {} c9ev none "sig" 3).2).traces = ({} : DB).traces + 1 ∧
      (applyTxns {} (runWebhook0 {} c9ev none "sig" 3).2).users = ({} : DB).users ∧
      (applyTxns {} (runWebhook0 {} c9ev none "sig" 3).2).payments = ({} : DB).payments ∧
      (runWebhook0 {} c9ev none "sig" 3).1.status = 200) :=
  ⟨C9_bad_signature_amended.1 {} c9ev none "sig" 3 (by decide),
   C9_bad_signature_amended.2 {} c9ev none "sig" 3 (by decide)⟩

end LullibeeApi

